import Mathlib

/-!
# Verification of the PDF search service core

A shallow embedding of the PDF search service (ETL pipeline, per-document
search index lifecycle, document-scoped search and caching layer), together
with proofs and refutations of the specification claims about it.

Conventions of the embedding:
* JavaScript strings are Lean `String`s; all character-level processing is
  done on `List Char` (`String.data`) with explicit recursive functions that
  mirror the regular-expression pipelines of the source.
* The stateful parts (SQLite rows, MeiliSearch indexes, the id supply of
  `generateChunkId`/`uuidv4`) are modelled by an explicit `World` record
  threaded through the operations; external failures (a MeiliSearch batch
  rejection) are injected through an explicit flag.
* JavaScript truthiness on numbers (`x || 1`) and strings (`!s`) is modelled
  explicitly where the source relies on it.
-/

namespace PDFSearch

/-! ## Character-level helpers (the regex character classes of the source) -/

/-- JavaScript `\s` restricted to the whitespace the pipeline meets. -/
def isSpaceChar (c : Char) : Bool :=
  c = ' ' || c = '\t' || c = '\n' || c = '\r'

/-- JavaScript `\w`: `[A-Za-z0-9_]`. -/
def isWordChar (c : Char) : Bool :=
  ('a' ≤ c && c ≤ 'z') || ('A' ≤ c && c ≤ 'Z') || ('0' ≤ c && c ≤ '9') || c = '_'

/-- The punctuation class `[.,!?;:]` of the repeated-punctuation collapse. -/
def isPunctChar (c : Char) : Bool :=
  c = '.' || c = ',' || c = '!' || c = '?' || c = ';' || c = ':'

/-- The allow-list of `cleanText`: `[\w\s.,!?;:()\-\[\]\x7b\x7d'"\/\\]`. -/
def isAllowedChar (c : Char) : Bool :=
  isWordChar c || isSpaceChar c || isPunctChar c ||
  c = '(' || c = ')' || c = '-' || c = '[' || c = ']' ||
  c = '\x7b' || c = '\x7d' || c = '\'' || c = '"' || c = '/' || c = '\\'

/-- `.replace(/\s+/g, ' ')`: each maximal whitespace run becomes one space.
The boolean argument records whether the previous character was whitespace. -/
def collapseWsAux : Bool → List Char → List Char
  | _, [] => []
  | prev, c :: cs =>
    if isSpaceChar c then
      if prev then collapseWsAux true cs else ' ' :: collapseWsAux true cs
    else c :: collapseWsAux false cs

def collapseWs (l : List Char) : List Char := collapseWsAux false l

/-- Quote normalisation `.replace(/[“”]/g,'"').replace(/[‘’]/g,"'")`
(curly quotes, code points 8216/8217/8220/8221, to straight quotes). -/
def normQuote (c : Char) : Char :=
  if c.toNat = 8220 || c.toNat = 8221 then '"'
  else if c.toNat = 8216 || c.toNat = 8217 then '\'' else c

/-- `.replace(/([.,!?;:])\x7b2,\x7d/g, '$1')`: a maximal run of two or more
punctuation-class characters is replaced by its last character (a quantified
capture group holds the final repetition). -/
def collapsePunct : List Char → List Char
  | [] => []
  | c :: cs =>
    if isPunctChar c then
      match cs with
      | c2 :: _ => if isPunctChar c2 then collapsePunct cs else c :: collapsePunct cs
      | [] => [c]
    else c :: collapsePunct cs

/-- JavaScript `String.prototype.trim` on the characters in play. -/
def trimChars (l : List Char) : List Char :=
  ((l.dropWhile isSpaceChar).reverse.dropWhile isSpaceChar).reverse

/-- `ETLService.cleanText`: collapse whitespace, strip characters outside the
allow-list, normalise quotes, collapse repeated punctuation, trim. -/
def cleanText (s : String) : String :=
  String.mk (trimChars (collapsePunct
    ((( collapseWs s.data).filter isAllowedChar).map normQuote)))

/-! ## Decimal rendering (JavaScript number-to-string for naturals) -/

def digitChar (n : Nat) : Char :=
  match n with
  | 0 => '0' | 1 => '1' | 2 => '2' | 3 => '3' | 4 => '4'
  | 5 => '5' | 6 => '6' | 7 => '7' | 8 => '8' | _ => '9'

/-- Big-endian decimal digits of `n`, accumulator-style; the first argument
is fuel (`n` bounds the number of divisions by ten). -/
def natDigsAux : Nat → Nat → List Char → List Char
  | 0, n, acc => digitChar n :: acc
  | fuel + 1, n, acc =>
    if n < 10 then digitChar n :: acc
    else natDigsAux fuel (n / 10) (digitChar (n % 10) :: acc)

def natToDigs (n : Nat) : List Char := natDigsAux n n []

/-- Decimal rendering of a natural number, as JavaScript renders it into
template strings and JSON. -/
def natRepr (n : Nat) : String := String.mk (natToDigs n)

/-- The numeric value a digit character denotes. -/
def digitVal (c : Char) : Nat := c.toNat - 48

/-- Value of a big-endian digit list. -/
def digsVal (l : List Char) : Nat := l.foldl (fun a c => a * 10 + digitVal c) 0

def isDigitChar (c : Char) : Bool := 48 ≤ c.toNat && c.toNat ≤ 57

/-! ## Text features (`ETLService.extractTextFeatures`) -/

/-- Maximal runs of characters satisfying `p` (the segments a JavaScript
`split` on the complementary character class keeps, empties dropped). -/
def splitRuns (p : Char → Bool) : List Char → List (List Char)
  | [] => []
  | c :: cs =>
    if p c then
      match cs with
      | c2 :: _ =>
        if p c2 then
          match splitRuns p cs with
          | r :: rs => (c :: r) :: rs
          | [] => [[c]]
        else [c] :: splitRuns p cs
      | [] => [[c]]
    else splitRuns p cs

/-- Sentence-terminating punctuation `[.!?]`. -/
def isSentEnd (c : Char) : Bool := c = '.' || c = '!' || c = '?'

/-- `natural.WordTokenizer` on the lowercased text: the maximal word-character
runs (punctuation and whitespace are token separators). -/
def wordTokens (text : String) : List (List Char) :=
  splitRuns isWordChar (text.data.map Char.toLower)

/-- `text.split(/[.!?]+/).filter(s => s.trim().length > 0)`. -/
def sentenceSegs (text : String) : List (List Char) :=
  (splitRuns (fun c => !(isSentEnd c)) text.data).filter
    (fun s => !(trimChars s).isEmpty)

structure TextFeatures where
  wordCount : Nat
  sentenceCount : Nat
  characterCount : Nat
  avgWordsPerSentence : Nat
  containsNumbers : Bool
  containsCapitals : Bool
deriving DecidableEq

/-- `ETLService.extractTextFeatures`.  For empty text the source returns an
empty feature object, modelled as `none`.  `avgWordsPerSentence` is
`Math.round(wordCount / sentenceCount)`; for naturals
`Math.round(w / s) = ⌊(2w + s) / 2s⌋` (round half away from zero). -/
def extractTextFeatures (text : String) : Option TextFeatures :=
  if text = "" then none
  else
    let w := (wordTokens text).length
    let s := (sentenceSegs text).length
    some
      { wordCount := w
        sentenceCount := s
        characterCount := text.length
        avgWordsPerSentence := if 0 < s then (2 * w + s) / (2 * s) else 0
        containsNumbers := text.data.any isDigitChar
        containsCapitals := text.data.any (fun c => 'A' ≤ c && c ≤ 'Z') }

/-! ## Raw content records and chunk extraction -/

inductive ContentType
  | paragraph
  | image
  | table
deriving DecidableEq

/-- JavaScript `v || d` on numbers (`0`, `null` and `undefined` all fall to
the default). -/
def jsOrNat (v : Option Nat) (d : Nat) : Nat :=
  match v with
  | some n => if n = 0 then d else n
  | none => d

/-- A raw paragraph record (`paragraph.content || paragraph.text` collapsed
into one field, `pageNumber || page` into one optional field). -/
structure ParagraphRec where
  content : String
  pageNumber : Option Nat
deriving DecidableEq

/-- What `ocrService.processImage` produces for an image: the cleaned
extracted text and the engine confidence.  An image record with no
`data`/`buffer` carries `none`; an OCR engine failure is caught by the
source and skips the record, which coincides with the empty-text outcome. -/
structure OcrOutcome where
  text : String
  confidence : Nat
deriving DecidableEq

structure ImageRec where
  ocr : Option OcrOutcome
  pageNumber : Option Nat
deriving DecidableEq

/-- A raw table record; rows are arrays of cell strings (the source also
accepts object rows via `Object.values`, which yields the same value list). -/
structure TableRec where
  headers : Option (List String)
  rows : List (List String)
  caption : Option String
  pageNumber : Option Nat
deriving DecidableEq

structure ParsedData where
  paragraphs : List ParagraphRec
  images : List ImageRec
  tables : List TableRec
deriving DecidableEq

/-- A chunk candidate before an id is drawn from `generateChunkId`. -/
structure ChunkCore where
  type : ContentType
  content : String
  pageNumber : Nat
  ocrConfidence : Option Nat
deriving DecidableEq

/-- A processed chunk (`generateChunkId` ids are modelled by numbering from
the world's id supply; metadata maps carry no claim-relevant state and are
omitted). -/
structure Chunk where
  id : Nat
  type : ContentType
  content : String
  pageNumber : Nat
  ocrConfidence : Option Nat
deriving DecidableEq

/-- One iteration of `ETLService.processParagraphs`: clean, reject when the
cleaned text is empty or shorter than 10, else emit a paragraph chunk. -/
def paragraphChunk? (p : ParagraphRec) : Option ChunkCore :=
  let cleaned := cleanText p.content
  if cleaned.length < 10 then none
  else some ⟨.paragraph, cleaned, jsOrNat p.pageNumber 1, none⟩

/-- One iteration of `ETLService.processImages`: OCR when image bytes are
present, emit an image chunk only when the extracted text is truthy and
longer than 5 characters. -/
def imageChunk? (i : ImageRec) : Option ChunkCore :=
  let extractedText := match i.ocr with | some r => r.text | none => ""
  let conf := match i.ocr with | some r => r.confidence | none => 0
  if extractedText.length ≤ 5 then none
  else some ⟨.image, extractedText, jsOrNat i.pageNumber 1, some conf⟩

def joinComma (l : List String) : String := String.intercalate ", " l

def jsTrim (s : String) : String := String.mk (trimChars s.data)

/-- `ETLService.convertTableToText`: optional `Headers:` line, one
`Row N:` line per row, optional `Caption:` line, trimmed. -/
def convertTableToText (t : TableRec) : String :=
  let headerPart :=
    match t.headers with
    | some hs => "Headers: " ++ joinComma hs ++ "\n"
    | none => ""
  let rowsPart :=
    String.join (t.rows.enum.map
      (fun ir => "Row " ++ natRepr (ir.1 + 1) ++ ": " ++ joinComma ir.2 ++ "\n"))
  let captionPart :=
    match t.caption with
    | some c => "Caption: " ++ c ++ "\n"
    | none => ""
  jsTrim (headerPart ++ rowsPart ++ captionPart)

/-- One iteration of `ETLService.processTables`: flatten, reject when the
flattened text is empty or shorter than 10, else emit a table chunk. -/
def tableChunk? (t : TableRec) : Option ChunkCore :=
  let tableText := convertTableToText t
  if tableText.length < 10 then none
  else some ⟨.table, tableText, jsOrNat t.pageNumber 1, none⟩

def processParagraphs (ps : List ParagraphRec) : List ChunkCore :=
  ps.filterMap paragraphChunk?

def processImages (is : List ImageRec) : List ChunkCore :=
  is.filterMap imageChunk?

def processTables (ts : List TableRec) : List ChunkCore :=
  ts.filterMap tableChunk?

/-- `ETLService.extractAndProcessContent` without ids: paragraph chunks, then
image chunks, then table chunks. -/
def extractCores (pd : ParsedData) : List ChunkCore :=
  processParagraphs pd.paragraphs ++ processImages pd.images ++ processTables pd.tables

/-- Draw one fresh `generateChunkId` id per accepted chunk, in order. -/
def assignIds (n : Nat) : List ChunkCore → List Chunk
  | [] => []
  | c :: cs => ⟨n, c.type, c.content, c.pageNumber, c.ocrConfidence⟩ :: assignIds (n + 1) cs

/-- `extractAndProcessContent` with ids drawn from the supply `nextId`
(each accepted chunk calls `generateChunkId`, which yields a fresh id). -/
def extractAndProcessContent (pd : ParsedData) (nextId : Nat) : List Chunk × Nat :=
  (assignIds nextId (extractCores pd), nextId + (extractCores pd).length)

/-- `ETLService.calculateTotalPages`: `Math.max(...chunks.map(c => c.pageNumber || 1))`,
`0` for an empty chunk list. -/
def calculateTotalPages (chunks : List Chunk) : Nat :=
  if chunks.isEmpty then 0
  else chunks.foldr (fun c m => max (jsOrNat (some c.pageNumber) 1) m) 0

/-! ## The persistent world: document rows, chunk rows, search indexes

SQLite state (`documents` and `chunks` tables), MeiliSearch state (one index
per name, documents upserted by primary key `id`) and the fresh-id supply
(`generateChunkId`, `uuidv4`) are modelled as one explicit record. -/

inductive DocStatus
  | pending
  | processing
  | completed
  | failed
deriving DecidableEq

structure DocumentRow where
  id : String
  status : DocStatus
  processingError : Option String
  totalPages : Nat
  totalChunks : Nat
deriving DecidableEq

structure ChunkRow where
  id : Nat
  documentId : String
  chunkType : ContentType
  content : String
  pageNumber : Nat
  ocrConfidence : Option Nat
deriving DecidableEq

structure IndexDoc where
  id : Nat
  documentId : String
  docType : ContentType
  content : String
  pageNumber : Nat
  ocrConfidence : Option Nat
deriving DecidableEq

structure SearchIndex where
  name : String
  docs : List IndexDoc
deriving DecidableEq

structure World where
  docs : List DocumentRow
  chunkRows : List ChunkRow
  indexes : List SearchIndex
  nextId : Nat
deriving DecidableEq

/-- `Document.findById`. -/
def findDoc (w : World) (documentId : String) : Option DocumentRow :=
  w.docs.find? (fun d => d.id == documentId)

def updateDocRow (w : World) (documentId : String)
    (f : DocumentRow → DocumentRow) : World :=
  { w with docs := w.docs.map (fun d => if d.id == documentId then f d else d) }

/-- `Document.updateStatus`: writes only the status and error columns. -/
def updateStatus (w : World) (documentId : String) (st : DocStatus)
    (err : Option String) : World :=
  updateDocRow w documentId (fun d => { d with status := st, processingError := err })

/-- `Document.save`: `INSERT OR REPLACE` of the full in-memory row. -/
def saveDoc (w : World) (doc : DocumentRow) : World :=
  if w.docs.any (fun d => d.id == doc.id) then updateDocRow w doc.id (fun _ => doc)
  else { w with docs := w.docs ++ [doc] }

/-- `SELECT COUNT(*) FROM chunks WHERE document_id = ?`. -/
def countChunks (w : World) (documentId : String) : Nat :=
  (w.chunkRows.filter (fun r => r.documentId == documentId)).length

/-- JavaScript `v || null` on an optional number (`0` falls to `null`). -/
def jsOrNull (v : Option Nat) : Option Nat :=
  match v with
  | some n => if n = 0 then none else some n
  | none => none

/-- `Document.addChunk`: insert one chunk row under a fresh uuid, then
recount `total_chunks` for the owning document. -/
def insertChunkRow (w : World) (documentId : String) (c : Chunk) : World :=
  let row : ChunkRow :=
    ⟨w.nextId, documentId, c.type, c.content, c.pageNumber, jsOrNull c.ocrConfidence⟩
  let w1 := { w with chunkRows := w.chunkRows ++ [row], nextId := w.nextId + 1 }
  updateDocRow w1 documentId (fun d => { d with totalChunks := countChunks w1 documentId })

/-- `ETLService.storeChunks`: `addChunk` for each processed chunk in order. -/
def storeChunks (w : World) (documentId : String) : List Chunk → World
  | [] => w
  | c :: cs => storeChunks (insertChunkRow w documentId c) documentId cs

/-- `IndexService.getIndexName`. -/
def getIndexName (documentId : String) : String := "pdf_search_" ++ documentId

def findIndex (w : World) (name : String) : Option SearchIndex :=
  w.indexes.find? (fun ix => ix.name == name)

/-- `IndexService.createDocumentIndex`: create the per-document index; an
`index_already_exists` error from MeiliSearch is swallowed, leaving the
existing index (and its documents) in place.  `configureIndex` settings carry
no claim-relevant state. -/
def createDocumentIndex (w : World) (documentId : String) : World :=
  let name := getIndexName documentId
  if (findIndex w name).isSome then w
  else { w with indexes := w.indexes ++ [⟨name, []⟩] }

/-- MeiliSearch `addDocuments` upserts by primary key `id`. -/
def upsertDoc (docs : List IndexDoc) (d : IndexDoc) : List IndexDoc :=
  if docs.any (fun e => e.id == d.id) then
    docs.map (fun e => if e.id == d.id then d else e)
  else docs ++ [d]

/-- `IndexService.indexDocumentChunks`: transform chunks to search documents
and add them to the per-document index in one batch. -/
def indexDocumentChunks (w : World) (documentId : String) (chunks : List Chunk) : World :=
  let name := getIndexName documentId
  let sdocs := chunks.map (fun c =>
    (⟨c.id, documentId, c.type, c.content, c.pageNumber, c.ocrConfidence⟩ : IndexDoc))
  match findIndex w name with
  | some _ =>
    { w with indexes := w.indexes.map (fun e =>
        if e.name == name then { e with docs := sdocs.foldl upsertDoc e.docs } else e) }
  | none => { w with indexes := w.indexes ++ [⟨name, sdocs.foldl upsertDoc []⟩] }

/-- The documents currently held by the index of name `name`. -/
def indexDocsOf (w : World) (name : String) : List IndexDoc :=
  match findIndex w name with
  | some ix => ix.docs
  | none => []

structure EtlResult where
  documentId : String
  totalChunks : Nat
  totalPages : Nat
deriving DecidableEq

/-- `ETLService.processDocument`.  `indexingFails` injects a thrown
MeiliSearch error at the indexing step (a dependency failure in step 5);
the catch block then marks the document `failed` with the error message and
rethrows, exactly as the source does for any exception after the document
was loaded. -/
def processDocument (w : World) (documentId : String) (pd : ParsedData)
    (indexingFails : Bool) : World × Except String EtlResult :=
  match findDoc w documentId with
  | none => (w, .error ("Document " ++ documentId ++ " not found"))
  | some doc0 =>
    let doc1 := { doc0 with status := .processing, processingError := none }
    let w1 := updateStatus w documentId .processing none
    let ex := extractAndProcessContent pd w1.nextId
    let chunks := ex.1
    let w2 := { w1 with nextId := ex.2 }
    let doc2 := { doc1 with totalPages := calculateTotalPages chunks }
    let w3 := saveDoc w2 doc2
    let w4 := storeChunks w3 documentId chunks
    let w5 := createDocumentIndex w4 documentId
    if indexingFails then
      (updateStatus w5 documentId .failed (some "Indexing failed"),
       .error "Indexing failed")
    else
      let w6 := indexDocumentChunks w5 documentId chunks
      let w7 := updateStatus w6 documentId .completed none
      (w7, .ok ⟨documentId, chunks.length, doc2.totalPages⟩)

inductive JobOutcome
  | alreadyProcessed
  | completedRun (r : EtlResult)
deriving DecidableEq

/-- `processDocumentJob`: load the document, short-circuit when it is already
`completed`, otherwise run the ETL service; on an ETL error, mark the
document `failed` only when this was the final allowed attempt, and rethrow
so the queue can retry.  (`job.attemptsMade` counts earlier attempts;
`attempts` is `job.opts.attempts`.) -/
def processDocumentJob (w : World) (documentId : String) (pd : ParsedData)
    (attemptsMade attempts : Nat) (indexingFails : Bool) :
    World × Except String JobOutcome :=
  match findDoc w documentId with
  | none => (w, .error ("Document " ++ documentId ++ " not found"))
  | some doc =>
    if doc.status = .completed then (w, .ok .alreadyProcessed)
    else
      match processDocument w documentId pd indexingFails with
      | (w', .ok r) => (w', .ok (.completedRun r))
      | (w', .error e) =>
        if attempts ≤ attemptsMade + 1 then
          (updateStatus w' documentId .failed (some e), .error e)
        else (w', .error e)

/-- `DocumentController.reprocessDocument` resets a non-`processing` document
to `pending` before enqueueing the new processing job. -/
def reprocessReset (w : World) (documentId : String) : World :=
  updateStatus w documentId .pending none

/-! ## Search service: query cleaning, cache keys, validation, suggestions -/

def MIN_QUERY_LENGTH : Nat := 2
def DEFAULT_LIMIT : Nat := 20
def MAX_RESULTS : Nat := 100

/-- `SearchService.cleanSearchQuery`: trim, lowercase, replace characters
outside `[\w\s\-'"]` with a space, collapse whitespace, trim. -/
def cleanSearchQuery (q : String) : String :=
  let l1 := (trimChars q.data).map Char.toLower
  let l2 := l1.map (fun c =>
    if isWordChar c || isSpaceChar c || c = '-' || c = '\'' || c = '"' then c else ' ')
  String.mk (trimChars (collapseWs l2))

/-! ### Base64 (Node `Buffer.toString('base64')`)

Every string the service feeds to `Buffer.from` here (the cleaned query and
the options JSON) is ASCII, where the UTF-8 byte sequence is the code-point
sequence. -/

def b64Table : List Char :=
  "ABCDEFGHIJKLMNOPQRSTUVWXYZabcdefghijklmnopqrstuvwxyz0123456789+/".data

def b64Char (n : Nat) : Char := b64Table.getD n 'A'

def b64Encode : List Nat → List Char
  | [] => []
  | [b1] => [b64Char (b1 / 4), b64Char (b1 % 4 * 16), '=', '=']
  | [b1, b2] =>
    [b64Char (b1 / 4), b64Char (b1 % 4 * 16 + b2 / 16), b64Char (b2 % 16 * 4), '=']
  | b1 :: b2 :: b3 :: rest =>
    b64Char (b1 / 4) :: b64Char (b1 % 4 * 16 + b2 / 16) ::
    b64Char (b2 % 16 * 4 + b3 / 64) :: b64Char (b3 % 64) :: b64Encode rest

def stringToBytes (s : String) : List Nat := s.data.map Char.toNat

def b64OfString (s : String) : String := String.mk (b64Encode (stringToBytes s))

/-- The search options as the controller hands them to the service:
`limit`/`offset` are numbers, `type`/`sortBy` are strings or absent
(`undefined`), `page`/`minConfidence` are numbers or `null`, `sortOrder`
is a validated string, `highlight` a boolean the service never reads. -/
structure SearchOptions where
  limit : Nat
  offset : Nat
  type : Option String
  page : Option Nat
  minConfidence : Option Nat
  sortBy : Option String
  sortOrder : String
  highlight : Bool
deriving DecidableEq

/-- `JSON.stringify` of the object `generateCacheKey` builds: the keys
`limit, offset, type, page, sortBy, sortOrder` in literal order, `undefined`
fields omitted, `null` rendered as `null`.  `minConfidence` is not part of
the object. -/
def jsonOfCacheOptions (o : SearchOptions) : String :=
  "\x7b\"limit\":" ++ natRepr o.limit
  ++ ",\"offset\":" ++ natRepr o.offset
  ++ (match o.type with
      | some t => ",\"type\":\"" ++ t ++ "\""
      | none => "")
  ++ ",\"page\":" ++ (match o.page with | some p => natRepr p | none => "null")
  ++ (match o.sortBy with
      | some s => ",\"sortBy\":\"" ++ s ++ "\""
      | none => "")
  ++ ",\"sortOrder\":\"" ++ o.sortOrder ++ "\"\x7d"

/-- `SearchService.generateCacheKey`: prefix `search:`, the document id, the
base64 of the (cleaned) query and the base64 of the options JSON. -/
def generateCacheKey (documentId query : String) (o : SearchOptions) : String :=
  "search:" ++ documentId ++ ":" ++ b64OfString query ++ ":"
    ++ b64OfString (jsonOfCacheOptions o)

/-! ### Typed search failures and the controller's response mapping -/

inductive SearchFailure
  | docIdRequired
  | queryTooShort
  | notFound
  | notReady (st : DocStatus)
  | internal (msg : String)
deriving DecidableEq

def statusName : DocStatus → String
  | .pending => "pending"
  | .processing => "processing"
  | .completed => "completed"
  | .failed => "failed"

/-- The `Error` messages `SearchService.searchDocument` throws. -/
def failureMessage : SearchFailure → String
  | .docIdRequired => "Document ID is required"
  | .queryTooShort => "Query must be at least 2 characters long"
  | .notFound => "Document not found"
  | .notReady st => "Document is not ready for search. Status: " ++ statusName st
  | .internal m => m

def isSubstrOf (pat l : List Char) : Bool :=
  l.tails.any (fun t => pat.isPrefixOf t)

def containsSubstr (s pat : String) : Bool := isSubstrOf pat.data s.data

/-- `SearchController.searchDocument`'s catch block: dispatch on the error
message to 404 / 422 / 400, defaulting to 500. -/
def searchErrorHttpStatus (e : SearchFailure) : Nat :=
  let m := failureMessage e
  if containsSubstr m "Document not found" then 404
  else if containsSubstr m "not ready for search" then 422
  else if containsSubstr m "Query must be at least" then 400
  else 500

/-! ### `SearchService.searchDocument` -/

inductive SearchOutcome
  | fromCache (v : String)
  | fresh (hits : List IndexDoc)
deriving DecidableEq

/-- `SearchService.searchDocument`.  `cache` is the Redis keyspace (cached
response bodies keyed by fingerprint); `idxResult` is what
`indexService.search` on the document's index would return (the external
MeiliSearch boundary).  The boolean records whether the index was queried at
all. -/
def searchDocument (w : World) (cache : List (String × String))
    (documentId query : String) (opts : SearchOptions)
    (idxResult : Except String (List IndexDoc)) :
    Except SearchFailure SearchOutcome × Bool :=
  if documentId = "" then (.error .docIdRequired, false)
  else if (jsTrim query).length < MIN_QUERY_LENGTH then (.error .queryTooShort, false)
  else
    match findDoc w documentId with
    | none => (.error .notFound, false)
    | some doc =>
      if doc.status ≠ .completed then (.error (.notReady doc.status), false)
      else
        let cleanQuery := cleanSearchQuery query
        let cacheKey := generateCacheKey documentId cleanQuery opts
        match cache.find? (fun kv => kv.1 == cacheKey) with
        | some kv => (.ok (.fromCache kv.2), false)
        | none =>
          match idxResult with
          | .error e => (.error (.internal e), true)
          | .ok hits => (.ok (.fresh hits), true)

/-- `SearchService.invalidateCache`: the source computes the purge pattern
and logs it but performs no deletion (the body is an acknowledged
placeholder), then reports `true`. -/
def invalidateCache (cache : List (String × String)) (_documentId : String) :
    List (String × String) × Bool :=
  (cache, true)

/-- `SearchController.clearSearchCache`: 404 when the document does not
exist, otherwise invalidate and answer 200. -/
def clearSearchCache (w : World) (cache : List (String × String))
    (documentId : String) : List (String × String) × Nat :=
  match findDoc w documentId with
  | none => (cache, 404)
  | some _ => ((invalidateCache cache documentId).1, 200)

/-! ### `SearchService.searchSuggestions` -/

/-- `SearchService.extractSuggestions`: from each hit's content, collect the
cleaned words longer than 2 characters that start with the query or contain
one of its words, de-duplicated in first-occurrence order (JavaScript `Set`
iteration order). -/
def extractSuggestions (hits : List IndexDoc) (query : String) : List String :=
  let ql := query.data.map Char.toLower
  let queryWords := splitRuns (fun c => !(isSpaceChar c)) ql
  let wordsOf := fun (h : IndexDoc) =>
    splitRuns (fun c => !(isSpaceChar c)) (h.content.data.map Char.toLower)
  let step := fun (acc : List (List Char)) (w : List Char) =>
    let cw := w.filter isWordChar
    if 2 < cw.length
        && (ql.isPrefixOf cw || queryWords.any (fun qw => isSubstrOf qw cw))
        && !(acc.any (fun a => a == cw))
    then acc ++ [cw] else acc
  ((hits.flatMap wordsOf).foldl step []).map String.mk

structure SuggestionsResult where
  suggestions : List String
deriving DecidableEq

/-- `SearchService.searchSuggestions`: empty result without an index round
trip when the query is absent or shorter than 2 characters; empty result
when the index query throws; otherwise the extracted suggestions truncated
to `limit`.  The boolean records whether the index was queried. -/
def searchSuggestions (_documentId query : String) (limit : Nat)
    (idxResult : Except String (List IndexDoc)) : SuggestionsResult × Bool :=
  if query = "" ∨ query.length < 2 then (⟨[]⟩, false)
  else
    match idxResult with
    | .error _ => (⟨[]⟩, true)
    | .ok hits => (⟨(extractSuggestions hits query).take limit⟩, true)

/-! ## Auxiliary definitions used by the statements and proofs -/

/-- The chunk rows `storeChunks` appends, with row uuids numbered from `n`. -/
def chunkRowsFrom (n : Nat) (documentId : String) : List Chunk → List ChunkRow
  | [] => []
  | c :: cs =>
    ⟨n, documentId, c.type, c.content, c.pageNumber, jsOrNull c.ocrConfidence⟩
      :: chunkRowsFrom (n + 1) documentId cs

/-- The chunk rows a `processDocument` run appends for its document: one row
per extracted chunk, with row uuids starting after the chunk ids. -/
def newRowsOf (w : World) (documentId : String) (pd : ParsedData) : List ChunkRow :=
  match findDoc w documentId with
  | none => []
  | some _ =>
    chunkRowsFrom (w.nextId + (extractCores pd).length) documentId
      (assignIds w.nextId (extractCores pd))

/-- The option values the HTTP validation layer can actually hand to the
service: `type` one of the three content kinds or absent, `sortBy` from the
sort allow-list or absent, `sortOrder` either direction. -/
def validCacheOptions (o : SearchOptions) : Prop :=
  (o.type = none ∨ o.type = some "paragraph" ∨ o.type = some "image"
      ∨ o.type = some "table") ∧
  (o.sortBy = none ∨ o.sortBy = some "pageNumber" ∨ o.sortBy = some "ocrConfidence"
      ∨ o.sortBy = some "createdAt") ∧
  (o.sortOrder = "asc" ∨ o.sortOrder = "desc")

instance (o : SearchOptions) : Decidable (validCacheOptions o) := by
  unfold validCacheOptions; infer_instance

/-! ## Concrete scenario: first processing run, then a reprocess run -/

/-- A fresh world holding one pending document `d1` with no chunks. -/
def wStart : World :=
  { docs := [⟨"d1", .pending, none, 0, 0⟩], chunkRows := [], indexes := [], nextId := 0 }

/-- Parsed data of the first processing run: one paragraph on page 2. -/
def pdFirst : ParsedData :=
  { paragraphs := [⟨"The quick brown fox jumps over the lazy dog", some 2⟩]
    images := [], tables := [] }

/-- Parsed data of the reprocess run: one paragraph on page 1 (the shape the
reprocess endpoint enqueues). -/
def pdSecond : ParsedData :=
  { paragraphs := [⟨"Document report.pdf reprocessing", some 1⟩]
    images := [], tables := [] }

/-- Parsed data exercising all three record kinds and both rejection
branches. -/
def pdMixed : ParsedData :=
  { paragraphs := [⟨"The quick brown fox jumps over the lazy dog", some 1⟩, ⟨"tiny", some 1⟩]
    images := [⟨some ⟨"INVOICE 2024", 91⟩, some 2⟩, ⟨some ⟨"no", 40⟩, some 2⟩, ⟨none, some 2⟩]
    tables := [⟨some ["A", "B"], [["1", "2"]], none, some 2⟩] }

/-- First delivery of the processing job (attempt 1 of 3, no failures). -/
def runFirst : World × Except String JobOutcome :=
  processDocumentJob wStart "d1" pdFirst 0 3 false

def wAfterFirst : World := runFirst.1

/-- The reprocess flow: the controller resets the completed document to
`pending` and enqueues a new job, which is then delivered. -/
def runReprocess : World × Except String JobOutcome :=
  processDocumentJob (reprocessReset wAfterFirst "d1") "d1" pdSecond 0 3 false

def wReprocessed : World := runReprocess.1

/-- First delivery (attempt 1 of 3) in which the indexing step throws. -/
def runFailing : World × Except String JobOutcome :=
  processDocumentJob wStart "d1" pdFirst 0 3 true

/-- The controller-shaped options of a plain search (defaults only). -/
def optPlain : SearchOptions := ⟨20, 0, none, none, none, none, "desc", true⟩

/-- `optPlain` with a minimum-confidence filter of 50. -/
def optMinConf50 : SearchOptions := ⟨20, 0, none, none, some 50, none, "desc", true⟩

/-- `optPlain` with limit 21 instead of 20. -/
def optLimit21 : SearchOptions := ⟨21, 0, none, none, none, none, "desc", true⟩

/-- The fingerprint of searching `d1` for `fox` with plain options. -/
def cacheEntryKey : String := generateCacheKey "d1" (cleanSearchQuery "fox") optPlain

/-- A cache holding one response for `d1` under that fingerprint. -/
def cacheWithEntry : List (String × String) := [(cacheEntryKey, "cached-response")]

/-! ## Decoders used to invert the cache-key encoding

These are not part of the service; they are the left inverses through which
the injectivity of `generateCacheKey` in the option values is proved. -/

def b64ValAux : List Char → Nat → Char → Nat
  | [], _, _ => 64
  | t :: ts, i, c => if t = c then i else b64ValAux ts (i + 1) c

/-- Index of a character in the base64 alphabet. -/
def b64Val (c : Char) : Nat := b64ValAux b64Table 0 c

/-- Base64 decoding (standard alphabet, `=` padding). -/
def b64Decode : List Char → List Nat
  | c1 :: c2 :: c3 :: c4 :: rest =>
    if c3 = '=' then [b64Val c1 * 4 + b64Val c2 / 16]
    else if c4 = '=' then
      [b64Val c1 * 4 + b64Val c2 / 16, b64Val c2 % 16 * 16 + b64Val c3 / 4]
    else
      (b64Val c1 * 4 + b64Val c2 / 16) ::
      (b64Val c2 % 16 * 16 + b64Val c3 / 4) ::
      (b64Val c3 % 4 * 64 + b64Val c4) :: b64Decode rest
  | _ => []

/-- Whether the head of `l` satisfies `p` (`false` for the empty list). -/
def headSat (p : Char → Bool) : List Char → Bool
  | [] => false
  | c :: _ => p c

/-- Strip an expected literal prefix. -/
def dropPrefixLit : List Char → List Char → Option (List Char)
  | [], l => some l
  | _ :: _, [] => none
  | p :: ps, c :: cs => if c = p then dropPrefixLit ps cs else none

/-- Read a leading decimal numeral. -/
def parseNatPart (l : List Char) : Option (Nat × List Char) :=
  let ds := l.takeWhile isDigitChar
  if ds.isEmpty then none else some (digsVal ds, l.dropWhile isDigitChar)

/-- Read a JSON string value up to its closing quote (no escapes occur in
the option values). -/
def parseStrVal (l : List Char) : Option (List Char × List Char) :=
  match l.dropWhile (fun c => !(c = '"')) with
  | _ :: rest => some (l.takeWhile (fun c => !(c = '"')), rest)
  | [] => none

/-- No double quote occurs in the string (all validated option values). -/
def noQuote (s : String) : Prop := ∀ c ∈ s.data, ¬(c = '"')

def decodeOptsSortPart (limit offset : Nat) (ty : Option String) (page : Option Nat)
    (sb : Option String) (l : List Char) :
    Option (Nat × Nat × Option String × Option Nat × Option String × String) := do
  let l1 ← dropPrefixLit (",\"sortOrder\":\"".data) l
  let (ov, l2) ← parseStrVal l1
  let _ ← dropPrefixLit ("\x7d".data) l2
  pure (limit, offset, ty, page, sb, String.mk ov)

def decodeOptsSortBy (limit offset : Nat) (ty : Option String) (page : Option Nat)
    (l : List Char) :
    Option (Nat × Nat × Option String × Option Nat × Option String × String) :=
  match dropPrefixLit (",\"sortBy\":\"".data) l with
  | some l1 => do
    let (sv, l2) ← parseStrVal l1
    decodeOptsSortPart limit offset ty page (some (String.mk sv)) l2
  | none => decodeOptsSortPart limit offset ty page none l

def decodeOptsPage (limit offset : Nat) (ty : Option String) (l : List Char) :
    Option (Nat × Nat × Option String × Option Nat × Option String × String) := do
  let l1 ← dropPrefixLit (",\"page\":".data) l
  match dropPrefixLit ("null".data) l1 with
  | some l2 => decodeOptsSortBy limit offset ty none l2
  | none => do
    let (p, l2) ← parseNatPart l1
    decodeOptsSortBy limit offset ty (some p) l2

def decodeOptsType (limit offset : Nat) (l : List Char) :
    Option (Nat × Nat × Option String × Option Nat × Option String × String) :=
  match dropPrefixLit (",\"type\":\"".data) l with
  | some l5 => do
    let (tv, l6) ← parseStrVal l5
    decodeOptsPage limit offset (some (String.mk tv)) l6
  | none => decodeOptsPage limit offset none l

def decodeOptsOffset (limit : Nat) (l : List Char) :
    Option (Nat × Nat × Option String × Option Nat × Option String × String) := do
  let l3 ← dropPrefixLit (",\"offset\":".data) l
  let (offset, l4) ← parseNatPart l3
  decodeOptsType limit offset l4

/-- Decode the cache-option JSON back into its field values. -/
def decodeCacheOptionsJson (l : List Char) :
    Option (Nat × Nat × Option String × Option Nat × Option String × String) := do
  let l1 ← dropPrefixLit ("\x7b\"limit\":".data) l
  let (limit, l2) ← parseNatPart l1
  decodeOptsOffset limit l2

/-! ## Lemmas: decimal digits -/

theorem digitVal_digitChar (n : Nat) (h : n < 10) : digitVal (digitChar n) = n := by
  interval_cases n <;> decide

theorem isDigitChar_digitChar (n : Nat) (h : n < 10) : isDigitChar (digitChar n) = true := by
  interval_cases n <;> decide

theorem digsVal_append_singleton (l : List Char) (c : Char) :
    digsVal (l ++ [c]) = digsVal l * 10 + digitVal c := by
  simp [digsVal, List.foldl_append]

theorem natDigsAux_acc (fuel : Nat) :
    ∀ n acc, natDigsAux fuel n acc = natDigsAux fuel n [] ++ acc := by
  induction fuel with
  | zero => intro n acc; rfl
  | succ fuel ih =>
    intro n acc
    by_cases h : n < 10
    · simp [natDigsAux, h]
    · simp only [natDigsAux, h, if_false]
      rw [ih (n / 10) (digitChar (n % 10) :: acc), ih (n / 10) [digitChar (n % 10)]]
      simp

theorem natDigsAux_fuel_irrel :
    ∀ fuel1 fuel2 n, n ≤ fuel1 → n ≤ fuel2 →
      natDigsAux fuel1 n [] = natDigsAux fuel2 n [] := by
  intro fuel1
  induction fuel1 with
  | zero =>
    intro fuel2 n h1 _
    interval_cases n
    cases fuel2 with
    | zero => rfl
    | succ _ => rfl
  | succ fuel ih =>
    intro fuel2 n h1 h2
    by_cases h : n < 10
    · cases fuel2 with
      | zero =>
        interval_cases n
        all_goals rfl
      | succ f2 => simp [natDigsAux, h]
    · cases fuel2 with
      | zero => omega
      | succ f2 =>
        simp only [natDigsAux, h, if_false]
        rw [natDigsAux_acc fuel, natDigsAux_acc f2,
          ih f2 (n / 10) (by omega) (by omega)]

/-- The defining recurrence of `natToDigs`. -/
theorem natToDigs_eq (n : Nat) :
    natToDigs n = if n < 10 then [digitChar n]
      else natToDigs (n / 10) ++ [digitChar (n % 10)] := by
  by_cases h : n < 10
  · simp only [h, if_true]
    unfold natToDigs
    cases n with
    | zero => rfl
    | succ m => simp [natDigsAux, h]
  · simp only [h, if_false]
    unfold natToDigs
    cases n with
    | zero => omega
    | succ m =>
      simp only [natDigsAux, h, if_false]
      rw [natDigsAux_acc m,
        natDigsAux_fuel_irrel m ((m + 1) / 10) ((m + 1) / 10) (by omega) (by omega)]

theorem digsVal_natToDigs (n : Nat) : digsVal (natToDigs n) = n := by
  induction n using Nat.strong_induction_on with
  | _ n ih =>
    rw [natToDigs_eq]
    by_cases h : n < 10
    · simp only [h, if_true]
      simp [digsVal, digitVal_digitChar n h]
    · simp only [h, if_false]
      rw [digsVal_append_singleton,
        ih (n / 10) (Nat.div_lt_self (by omega) (by omega)),
        digitVal_digitChar (n % 10) (Nat.mod_lt _ (by omega))]
      omega

theorem natToDigs_inj {m n : Nat} (h : natToDigs m = natToDigs n) : m = n := by
  have hm := digsVal_natToDigs m
  have hn := digsVal_natToDigs n
  rw [h] at hm; omega

theorem natToDigs_ne_nil (n : Nat) : natToDigs n ≠ [] := by
  rw [natToDigs_eq]
  by_cases h : n < 10 <;> simp [h]

theorem natToDigs_all_digits (n : Nat) : ∀ c ∈ natToDigs n, isDigitChar c = true := by
  induction n using Nat.strong_induction_on with
  | _ n ih =>
    rw [natToDigs_eq]
    by_cases h : n < 10
    · simp only [h, if_true, List.mem_singleton]
      rintro c rfl
      exact isDigitChar_digitChar n h
    · simp only [h, if_false, List.mem_append, List.mem_singleton]
      rintro c (hc | rfl)
      · exact ih (n / 10) (Nat.div_lt_self (by omega) (by omega)) c hc
      · exact isDigitChar_digitChar (n % 10) (Nat.mod_lt _ (by omega))

/-! ## Lemmas: the world after a processing run -/

@[simp]
theorem updateDocRow_chunkRows (w : World) (id : String) (f : DocumentRow → DocumentRow) :
    (updateDocRow w id f).chunkRows = w.chunkRows := rfl

@[simp]
theorem updateDocRow_nextId (w : World) (id : String) (f : DocumentRow → DocumentRow) :
    (updateDocRow w id f).nextId = w.nextId := rfl

@[simp]
theorem updateStatus_chunkRows (w : World) (id : String) (st : DocStatus)
    (err : Option String) : (updateStatus w id st err).chunkRows = w.chunkRows := rfl

@[simp]
theorem updateStatus_nextId (w : World) (id : String) (st : DocStatus)
    (err : Option String) : (updateStatus w id st err).nextId = w.nextId := rfl

@[simp]
theorem saveDoc_chunkRows (w : World) (doc : DocumentRow) :
    (saveDoc w doc).chunkRows = w.chunkRows := by
  unfold saveDoc
  split
  · rfl
  · rfl

@[simp]
theorem saveDoc_nextId (w : World) (doc : DocumentRow) :
    (saveDoc w doc).nextId = w.nextId := by
  unfold saveDoc
  split
  · rfl
  · rfl

@[simp]
theorem createDocumentIndex_docs (w : World) (id : String) :
    (createDocumentIndex w id).docs = w.docs := by
  unfold createDocumentIndex
  dsimp only
  split
  · rfl
  · rfl

@[simp]
theorem createDocumentIndex_chunkRows (w : World) (id : String) :
    (createDocumentIndex w id).chunkRows = w.chunkRows := by
  unfold createDocumentIndex
  dsimp only
  split
  · rfl
  · rfl

@[simp]
theorem indexDocumentChunks_docs (w : World) (id : String) (chunks : List Chunk) :
    (indexDocumentChunks w id chunks).docs = w.docs := by
  unfold indexDocumentChunks
  dsimp only
  split
  · rfl
  · rfl

@[simp]
theorem indexDocumentChunks_chunkRows (w : World) (id : String) (chunks : List Chunk) :
    (indexDocumentChunks w id chunks).chunkRows = w.chunkRows := by
  unfold indexDocumentChunks
  dsimp only
  split
  · rfl
  · rfl

theorem findDoc_of_docs_eq {w₁ w₂ : World} (id : String) (h : w₁.docs = w₂.docs) :
    findDoc w₁ id = findDoc w₂ id := by
  unfold findDoc
  rw [h]

theorem find?_map_update (docs : List DocumentRow) (id : String)
    (f : DocumentRow → DocumentRow)
    (hf : ∀ d, (d.id == id) = true → (f d).id = d.id) :
    (docs.map (fun d => if d.id == id then f d else d)).find? (fun d => d.id == id)
      = (docs.find? (fun d => d.id == id)).map f := by
  induction docs with
  | nil => rfl
  | cons d ds ih =>
    simp only [List.map_cons]
    by_cases hd : (d.id == id) = true
    · rw [if_pos hd, List.find?_cons_of_pos, List.find?_cons_of_pos]
      · rfl
      · exact hd
      · rw [hf d hd]; exact hd
    · rw [if_neg hd, List.find?_cons_of_neg, List.find?_cons_of_neg]
      · exact ih
      · exact hd
      · exact hd

theorem findDoc_updateDocRow (w : World) (id : String) (f : DocumentRow → DocumentRow)
    (hf : ∀ d, (d.id == id) = true → (f d).id = d.id) :
    findDoc (updateDocRow w id f) id = (findDoc w id).map f :=
  find?_map_update w.docs id f hf

theorem findDoc_id {w : World} {id : String} {d : DocumentRow}
    (h : findDoc w id = some d) : d.id = id := by
  have h' : List.find? (fun x : DocumentRow => x.id == id) w.docs = some d := h
  have hp := List.find?_some h'
  exact eq_of_beq hp

theorem findDoc_saveDoc_self (w : World) (doc : DocumentRow) {d0 : DocumentRow}
    (h : findDoc w doc.id = some d0) :
    findDoc (saveDoc w doc) doc.id = some doc := by
  unfold saveDoc
  have h' : List.find? (fun x : DocumentRow => x.id == doc.id) w.docs = some d0 := h
  have hany : w.docs.any (fun d => d.id == doc.id) = true := by
    rw [List.any_eq_true]
    have hmem := List.mem_of_find?_eq_some h'
    have hbeq := List.find?_some h'
    exact ⟨d0, hmem, hbeq⟩
  rw [if_pos hany, findDoc_updateDocRow]
  · rw [h]
    rfl
  · intro d hd
    exact (eq_of_beq hd).symm

@[simp]
theorem insertChunkRow_chunkRows (w : World) (id : String) (c : Chunk) :
    (insertChunkRow w id c).chunkRows
      = w.chunkRows
        ++ [⟨w.nextId, id, c.type, c.content, c.pageNumber, jsOrNull c.ocrConfidence⟩] :=
  rfl

@[simp]
theorem insertChunkRow_nextId (w : World) (id : String) (c : Chunk) :
    (insertChunkRow w id c).nextId = w.nextId + 1 := rfl

theorem countChunks_insertChunkRow (w : World) (id : String) (c : Chunk) :
    countChunks (insertChunkRow w id c) id = countChunks w id + 1 := by
  unfold countChunks
  rw [insertChunkRow_chunkRows, List.filter_append, List.length_append]
  simp

theorem findDoc_insertChunkRow (w : World) (id : String) (c : Chunk) :
    findDoc (insertChunkRow w id c) id
      = (findDoc w id).map (fun d => { d with totalChunks := countChunks w id + 1 }) := by
  unfold insertChunkRow
  dsimp only
  rw [findDoc_updateDocRow]
  case hf => intro d _; rfl
  have hrows :
      countChunks
        { w with
          chunkRows := w.chunkRows
            ++ [⟨w.nextId, id, c.type, c.content, c.pageNumber, jsOrNull c.ocrConfidence⟩]
          nextId := w.nextId + 1 } id
        = countChunks w id + 1 := by
    unfold countChunks
    rw [List.filter_append, List.length_append]
    simp
  rw [hrows]
  rfl

theorem storeChunks_chunkRows (id : String) :
    ∀ (cs : List Chunk) (w : World),
      (storeChunks w id cs).chunkRows = w.chunkRows ++ chunkRowsFrom w.nextId id cs := by
  intro cs
  induction cs with
  | nil => intro w; simp [storeChunks, chunkRowsFrom]
  | cons c cs ih =>
    intro w
    show (storeChunks (insertChunkRow w id c) id cs).chunkRows = _
    rw [ih (insertChunkRow w id c), insertChunkRow_chunkRows, insertChunkRow_nextId]
    simp [chunkRowsFrom]

theorem findDoc_storeChunks (id : String) :
    ∀ (cs : List Chunk) (w : World), cs ≠ [] →
      findDoc (storeChunks w id cs) id
        = (findDoc w id).map
            (fun d => { d with totalChunks := countChunks w id + cs.length }) := by
  intro cs
  induction cs with
  | nil => intro w h; exact absurd rfl h
  | cons c cs ih =>
    intro w _
    show findDoc (storeChunks (insertChunkRow w id c) id cs) id = _
    cases cs with
    | nil =>
      show findDoc (insertChunkRow w id c) id = _
      rw [findDoc_insertChunkRow]
      simp
    | cons c2 cs2 =>
      rw [ih (insertChunkRow w id c) (by simp), findDoc_insertChunkRow,
        Option.map_map]
      cases hfd : findDoc w id with
      | none => rfl
      | some d =>
        simp only [Option.map_some', Function.comp]
        rw [countChunks_insertChunkRow]
        have hlen : countChunks w id + 1 + (c2 :: cs2).length
            = countChunks w id + (c :: c2 :: cs2).length := by
          simp only [List.length_cons]
          omega
        rw [hlen]

theorem chunkRowsFrom_filter (id : String) :
    ∀ (cs : List Chunk) (n : Nat),
      (chunkRowsFrom n id cs).filter (fun r => r.documentId == id)
        = chunkRowsFrom n id cs := by
  intro cs
  induction cs with
  | nil => intro n; rfl
  | cons c cs ih =>
    intro n
    simp only [chunkRowsFrom, List.filter_cons]
    rw [ih (n + 1)]
    simp

theorem chunkRowsFrom_length (id : String) :
    ∀ (cs : List Chunk) (n : Nat), (chunkRowsFrom n id cs).length = cs.length := by
  intro cs
  induction cs with
  | nil => intro n; rfl
  | cons c cs ih => intro n; simp [chunkRowsFrom, ih (n + 1)]

theorem mem_chunkRowsFrom (id : String) :
    ∀ (cs : List Chunk) (n : Nat) (row : ChunkRow), row ∈ chunkRowsFrom n id cs →
      ∃ c ∈ cs, row.chunkType = c.type ∧ row.content = c.content ∧
        row.pageNumber = c.pageNumber := by
  intro cs
  induction cs with
  | nil => intro n row h; cases h
  | cons c cs ih =>
    intro n row h
    rcases h with _ | ⟨_, h⟩
    · exact ⟨c, List.mem_cons_self c cs, rfl, rfl, rfl⟩
    · obtain ⟨c', hc', h1, h2, h3⟩ := ih (n + 1) row h
      exact ⟨c', List.mem_cons_of_mem c hc', h1, h2, h3⟩

theorem mem_assignIds :
    ∀ (cs : List ChunkCore) (n : Nat) (c : Chunk), c ∈ assignIds n cs →
      ∃ core ∈ cs, c.type = core.type ∧ c.content = core.content ∧
        c.pageNumber = core.pageNumber := by
  intro cs
  induction cs with
  | nil => intro n c h; cases h
  | cons core cs ih =>
    intro n c h
    rcases h with _ | ⟨_, h⟩
    · exact ⟨core, List.mem_cons_self core cs, rfl, rfl, rfl⟩
    · obtain ⟨core', hc', h1, h2, h3⟩ := ih (n + 1) c h
      exact ⟨core', List.mem_cons_of_mem core hc', h1, h2, h3⟩

theorem paragraphChunk?_spec {p : ParagraphRec} {core : ChunkCore}
    (h : paragraphChunk? p = some core) :
    core.type = .paragraph ∧ 10 ≤ core.content.length ∧
      core.pageNumber = jsOrNat p.pageNumber 1 := by
  unfold paragraphChunk? at h
  dsimp only at h
  by_cases hlen : (cleanText p.content).length < 10
  · rw [if_pos hlen] at h
    cases h
  · rw [if_neg hlen] at h
    cases h
    refine ⟨rfl, ?_, rfl⟩
    show 10 ≤ (cleanText p.content).length
    omega

theorem imageChunk?_spec {i : ImageRec} {core : ChunkCore}
    (h : imageChunk? i = some core) :
    core.type = .image ∧ 6 ≤ core.content.length ∧
      core.pageNumber = jsOrNat i.pageNumber 1 := by
  unfold imageChunk? at h
  dsimp only at h
  by_cases hlen : (match i.ocr with | some r => r.text | none => "").length ≤ 5
  · rw [if_pos hlen] at h
    cases h
  · rw [if_neg hlen] at h
    cases h
    refine ⟨rfl, ?_, rfl⟩
    show 6 ≤ (match i.ocr with | some r => r.text | none => "").length
    omega

theorem tableChunk?_spec {t : TableRec} {core : ChunkCore}
    (h : tableChunk? t = some core) :
    core.type = .table ∧ 10 ≤ core.content.length ∧
      core.pageNumber = jsOrNat t.pageNumber 1 := by
  unfold tableChunk? at h
  dsimp only at h
  by_cases hlen : (convertTableToText t).length < 10
  · rw [if_pos hlen] at h
    cases h
  · rw [if_neg hlen] at h
    cases h
    refine ⟨rfl, ?_, rfl⟩
    show 10 ≤ (convertTableToText t).length
    omega

theorem extractCores_minLength (pd : ParsedData) :
    ∀ core ∈ extractCores pd,
      (core.type = .paragraph → 10 ≤ core.content.length) ∧
      (core.type = .image → 6 ≤ core.content.length) ∧
      (core.type = .table → 10 ≤ core.content.length) := by
  intro core hc
  unfold extractCores processParagraphs processImages processTables at hc
  rcases List.mem_append.mp hc with hc | hc
  · rcases List.mem_append.mp hc with hc | hc
    · obtain ⟨p, _, hp⟩ := List.mem_filterMap.mp hc
      obtain ⟨hty, hlen, _⟩ := paragraphChunk?_spec hp
      rw [hty]
      exact ⟨fun _ => hlen, fun h => absurd h (by decide), fun h => absurd h (by decide)⟩
    · obtain ⟨i, _, hi⟩ := List.mem_filterMap.mp hc
      obtain ⟨hty, hlen, _⟩ := imageChunk?_spec hi
      rw [hty]
      exact ⟨fun h => absurd h (by decide), fun _ => hlen, fun h => absurd h (by decide)⟩
  · obtain ⟨t, _, ht⟩ := List.mem_filterMap.mp hc
    obtain ⟨hty, hlen, _⟩ := tableChunk?_spec ht
    rw [hty]
    exact ⟨fun h => absurd h (by decide), fun h => absurd h (by decide), fun _ => hlen⟩

theorem jsOrNat_one_ne_zero (v : Option Nat) : jsOrNat v 1 ≠ 0 := by
  cases v with
  | none => simp [jsOrNat]
  | some n =>
    by_cases h : n = 0
    · simp [jsOrNat, h]
    · simp [jsOrNat, h]

theorem extractCores_page_ne_zero (pd : ParsedData) :
    ∀ core ∈ extractCores pd, core.pageNumber ≠ 0 := by
  intro core hc
  unfold extractCores processParagraphs processImages processTables at hc
  rcases List.mem_append.mp hc with hc | hc
  · rcases List.mem_append.mp hc with hc | hc
    · obtain ⟨p, _, hp⟩ := List.mem_filterMap.mp hc
      obtain ⟨_, _, hpage⟩ := paragraphChunk?_spec hp
      rw [hpage]
      exact jsOrNat_one_ne_zero _
    · obtain ⟨i, _, hi⟩ := List.mem_filterMap.mp hc
      obtain ⟨_, _, hpage⟩ := imageChunk?_spec hi
      rw [hpage]
      exact jsOrNat_one_ne_zero _
  · obtain ⟨t, _, ht⟩ := List.mem_filterMap.mp hc
    obtain ⟨_, _, hpage⟩ := tableChunk?_spec ht
    rw [hpage]
    exact jsOrNat_one_ne_zero _

theorem calculateTotalPages_eq_fold (cs : List Chunk) :
    calculateTotalPages cs
      = cs.foldr (fun c m => max (jsOrNat (some c.pageNumber) 1) m) 0 := by
  unfold calculateTotalPages
  cases cs with
  | nil => rfl
  | cons c cs => rfl

theorem fold_pages_eq_rows (id : String) :
    ∀ (cs : List Chunk) (n : Nat), (∀ c ∈ cs, c.pageNumber ≠ 0) →
      cs.foldr (fun c m => max (jsOrNat (some c.pageNumber) 1) m) 0
        = (chunkRowsFrom n id cs).foldr (fun row m => max row.pageNumber m) 0 := by
  intro cs
  induction cs with
  | nil => intro n _; rfl
  | cons c cs ih =>
    intro n hpos
    simp only [List.foldr_cons, chunkRowsFrom]
    rw [ih (n + 1) (fun c' hc' => hpos c' (List.mem_cons_of_mem c hc'))]
    have hc : c.pageNumber ≠ 0 := hpos c (List.mem_cons_self c cs)
    simp [jsOrNat, hc]

theorem findDoc_saveDoc_of_id (w : World) (doc : DocumentRow) (id : String)
    (hid : doc.id = id) {d0 : DocumentRow} (h : findDoc w id = some d0) :
    findDoc (saveDoc w doc) id = some doc := by
  subst hid
  exact findDoc_saveDoc_self w doc h

/-- A successful `processDocument` run written out as the explicit chain of
state updates it performs. -/
theorem processDocument_ok_eq (w : World) (documentId : String) (pd : ParsedData)
    (d0 : DocumentRow) (hfind : findDoc w documentId = some d0) :
    processDocument w documentId pd false
      = (updateStatus
          (indexDocumentChunks
            (createDocumentIndex
              (storeChunks
                (saveDoc
                  { (updateStatus w documentId .processing none) with
                      nextId := w.nextId + (extractCores pd).length }
                  { d0 with
                      status := .processing
                      processingError := none
                      totalPages := calculateTotalPages (assignIds w.nextId (extractCores pd)) })
                documentId (assignIds w.nextId (extractCores pd)))
              documentId)
            documentId (assignIds w.nextId (extractCores pd)))
          documentId .completed none,
        .ok ⟨documentId, (assignIds w.nextId (extractCores pd)).length,
          calculateTotalPages (assignIds w.nextId (extractCores pd))⟩) := by
  unfold processDocument
  rw [hfind]
  dsimp only [extractAndProcessContent]
  rfl

/-- A `processDocument` run whose indexing step throws, written out as the
explicit chain of state updates it performs before rethrowing. -/
theorem processDocument_fail_eq (w : World) (documentId : String) (pd : ParsedData)
    (d0 : DocumentRow) (hfind : findDoc w documentId = some d0) :
    processDocument w documentId pd true
      = (updateStatus
          (createDocumentIndex
            (storeChunks
              (saveDoc
                { (updateStatus w documentId .processing none) with
                    nextId := w.nextId + (extractCores pd).length }
                { d0 with
                    status := .processing
                    processingError := none
                    totalPages := calculateTotalPages (assignIds w.nextId (extractCores pd)) })
              documentId (assignIds w.nextId (extractCores pd)))
            documentId)
          documentId .failed (some "Indexing failed"),
        .error "Indexing failed") := by
  unfold processDocument
  rw [hfind]
  dsimp only [extractAndProcessContent]
  rfl

/-! ## Lemmas: base64 decodes its encoding, and the cache-option JSON
decodes back to the option fields -/

theorem b64Val_b64Char_fin : ∀ n : Fin 64, b64Val (b64Char n.val) = n.val := by decide

theorem b64Char_ne_pad_fin : ∀ n : Fin 64, b64Char n.val ≠ '=' := by decide

theorem b64Val_b64Char (n : Nat) (h : n < 64) : b64Val (b64Char n) = n :=
  b64Val_b64Char_fin ⟨n, h⟩

theorem b64Char_ne_pad (n : Nat) (h : n < 64) : b64Char n ≠ '=' :=
  b64Char_ne_pad_fin ⟨n, h⟩

theorem b64_decode_encode : ∀ (l : List Nat), (∀ b ∈ l, b < 256) →
    b64Decode (b64Encode l) = l
  | [], _ => rfl
  | [b1], h => by
    have hb1 : b1 < 256 := h b1 (by simp)
    show b64Decode (b64Char (b1 / 4) :: b64Char (b1 % 4 * 16) :: '=' :: '=' :: []) = [b1]
    unfold b64Decode
    rw [if_pos rfl, b64Val_b64Char _ (by omega), b64Val_b64Char _ (by omega)]
    have hv : b1 / 4 * 4 + b1 % 4 * 16 / 16 = b1 := by omega
    rw [hv]
  | [b1, b2], h => by
    have hb1 : b1 < 256 := h b1 (by simp)
    have hb2 : b2 < 256 := h b2 (by simp)
    show b64Decode (b64Char (b1 / 4) :: b64Char (b1 % 4 * 16 + b2 / 16)
      :: b64Char (b2 % 16 * 4) :: '=' :: []) = [b1, b2]
    unfold b64Decode
    rw [if_neg (b64Char_ne_pad _ (by omega)), if_pos rfl,
      b64Val_b64Char _ (by omega), b64Val_b64Char _ (by omega),
      b64Val_b64Char _ (by omega)]
    have hv1 : b1 / 4 * 4 + (b1 % 4 * 16 + b2 / 16) / 16 = b1 := by omega
    have hv2 : (b1 % 4 * 16 + b2 / 16) % 16 * 16 + b2 % 16 * 4 / 4 = b2 := by omega
    rw [hv1, hv2]
  | b1 :: b2 :: b3 :: b4 :: rest, h => by
    have hb1 : b1 < 256 := h b1 (by simp)
    have hb2 : b2 < 256 := h b2 (by simp)
    have hb3 : b3 < 256 := h b3 (by simp)
    show b64Decode (b64Char (b1 / 4) :: b64Char (b1 % 4 * 16 + b2 / 16)
        :: b64Char (b2 % 16 * 4 + b3 / 64) :: b64Char (b3 % 64)
        :: b64Encode (b4 :: rest)) = b1 :: b2 :: b3 :: b4 :: rest
    unfold b64Decode
    rw [if_neg (b64Char_ne_pad _ (by omega)), if_neg (b64Char_ne_pad _ (by omega)),
      b64Val_b64Char _ (by omega), b64Val_b64Char _ (by omega),
      b64Val_b64Char _ (by omega), b64Val_b64Char _ (by omega)]
    have hv1 : b1 / 4 * 4 + (b1 % 4 * 16 + b2 / 16) / 16 = b1 := by omega
    have hv2 : (b1 % 4 * 16 + b2 / 16) % 16 * 16 + (b2 % 16 * 4 + b3 / 64) / 4 = b2 := by
      omega
    have hv3 : (b2 % 16 * 4 + b3 / 64) % 4 * 64 + b3 % 64 = b3 := by omega
    rw [hv1, hv2, hv3,
      b64_decode_encode (b4 :: rest) (fun b hb => h b (by simp at hb ⊢; tauto))]
  | [b1, b2, b3], h => by
    have hb1 : b1 < 256 := h b1 (by simp)
    have hb2 : b2 < 256 := h b2 (by simp)
    have hb3 : b3 < 256 := h b3 (by simp)
    show b64Decode (b64Char (b1 / 4) :: b64Char (b1 % 4 * 16 + b2 / 16)
        :: b64Char (b2 % 16 * 4 + b3 / 64) :: b64Char (b3 % 64) :: b64Encode []) = [b1, b2, b3]
    unfold b64Decode
    rw [if_neg (b64Char_ne_pad _ (by omega)), if_neg (b64Char_ne_pad _ (by omega)),
      b64Val_b64Char _ (by omega), b64Val_b64Char _ (by omega),
      b64Val_b64Char _ (by omega), b64Val_b64Char _ (by omega)]
    have hv1 : b1 / 4 * 4 + (b1 % 4 * 16 + b2 / 16) / 16 = b1 := by omega
    have hv2 : (b1 % 4 * 16 + b2 / 16) % 16 * 16 + (b2 % 16 * 4 + b3 / 64) / 4 = b2 := by
      omega
    have hv3 : (b2 % 16 * 4 + b3 / 64) % 4 * 64 + b3 % 64 = b3 := by omega
    rw [hv1, hv2, hv3]
    rfl

theorem string_mk_data (l : List Char) : (String.mk l).data = l := rfl

theorem takeWhile_append_all {p : Char → Bool} :
    ∀ (l r : List Char), (∀ c ∈ l, p c = true) → headSat p r = false →
      (l ++ r).takeWhile p = l
  | [], r, _, hr => by
    cases r with
    | nil => rfl
    | cons c cs =>
      show List.takeWhile p (c :: cs) = []
      rw [List.takeWhile_cons, if_neg]
      intro hc
      rw [show headSat p (c :: cs) = p c from rfl, hc] at hr
      cases hr
  | c :: cs, r, hl, hr => by
    rw [List.cons_append, List.takeWhile_cons, if_pos (hl c (List.mem_cons_self c cs)),
      takeWhile_append_all cs r (fun x hx => hl x (List.mem_cons_of_mem c hx)) hr]

theorem dropWhile_append_all {p : Char → Bool} :
    ∀ (l r : List Char), (∀ c ∈ l, p c = true) → headSat p r = false →
      (l ++ r).dropWhile p = r
  | [], r, _, hr => by
    cases r with
    | nil => rfl
    | cons c cs =>
      show List.dropWhile p (c :: cs) = c :: cs
      rw [List.dropWhile_cons, if_neg]
      intro hc
      rw [show headSat p (c :: cs) = p c from rfl, hc] at hr
      cases hr
  | c :: cs, r, hl, hr => by
    rw [List.cons_append, List.dropWhile_cons, if_pos (hl c (List.mem_cons_self c cs)),
      dropWhile_append_all cs r (fun x hx => hl x (List.mem_cons_of_mem c hx)) hr]

theorem parseNatPart_digits (n : Nat) (r : List Char)
    (hr : headSat isDigitChar r = false) :
    parseNatPart (natToDigs n ++ r) = some (n, r) := by
  unfold parseNatPart
  rw [takeWhile_append_all _ _ (natToDigs_all_digits n) hr,
    dropWhile_append_all _ _ (natToDigs_all_digits n) hr]
  rw [if_neg, digsVal_natToDigs]
  intro hh
  exact natToDigs_ne_nil n (List.isEmpty_iff.mp hh)

theorem parseStrVal_value (v r : List Char) (hv : ∀ c ∈ v, ¬(c = '"')) :
    parseStrVal (v ++ '"' :: r) = some (v, r) := by
  unfold parseStrVal
  have hall : ∀ c ∈ v, (fun c => !(decide (c = '"'))) c = true := by
    intro c hc
    simp [hv c hc]
  rw [takeWhile_append_all v ('"' :: r) hall rfl,
    dropWhile_append_all v ('"' :: r) hall rfl]

theorem dropPrefixLit_null_digits (n : Nat) (r : List Char) :
    dropPrefixLit ("null".data) (natToDigs n ++ r) = none := by
  cases hd : natToDigs n with
  | nil => exact absurd hd (natToDigs_ne_nil n)
  | cons c cs =>
    have hdig : isDigitChar c = true := natToDigs_all_digits n c (by rw [hd]; simp)
    show (if c = 'n' then dropPrefixLit ("ull".data) (cs ++ r) else none) = none
    rw [if_neg]
    intro hc
    rw [hc] at hdig
    exact absurd hdig (by decide)

theorem decodeJson_limit (n : Nat) (S : List Char) (hS : headSat isDigitChar S = false) :
    decodeCacheOptionsJson ("\x7b\"limit\":".data ++ (natToDigs n ++ S))
      = decodeOptsOffset n S := by
  trans ((parseNatPart (natToDigs n ++ S)).bind (fun d => decodeOptsOffset d.1 d.2))
  · rfl
  · rw [parseNatPart_digits n S hS]
    rfl

theorem decodeJson_offset (limit n : Nat) (S : List Char)
    (hS : headSat isDigitChar S = false) :
    decodeOptsOffset limit (",\"offset\":".data ++ (natToDigs n ++ S))
      = decodeOptsType limit n S := by
  trans ((parseNatPart (natToDigs n ++ S)).bind (fun d => decodeOptsType limit d.1 d.2))
  · rfl
  · rw [parseNatPart_digits n S hS]
    rfl

theorem decodeJson_type_none (limit offset : Nat) (S : List Char) :
    decodeOptsType limit offset (",\"page\":".data ++ S)
      = decodeOptsPage limit offset none (",\"page\":".data ++ S) := rfl

theorem decodeJson_type_some (limit offset : Nat) (t : String) (S : List Char)
    (ht : noQuote t) :
    decodeOptsType limit offset (",\"type\":\"".data ++ (t.data ++ ('"' :: S)))
      = decodeOptsPage limit offset (some t) S := by
  trans ((parseStrVal (t.data ++ '"' :: S)).bind
      (fun d => decodeOptsPage limit offset (some (String.mk d.1)) d.2))
  · rfl
  · rw [parseStrVal_value t.data S ht]
    rfl

theorem decodeJson_page_null (limit offset : Nat) (ty : Option String) (S : List Char) :
    decodeOptsPage limit offset ty (",\"page\":".data ++ ("null".data ++ S))
      = decodeOptsSortBy limit offset ty none S := rfl

theorem decodeJson_page_num (limit offset : Nat) (ty : Option String) (p : Nat)
    (S : List Char) (hS : headSat isDigitChar S = false) :
    decodeOptsPage limit offset ty (",\"page\":".data ++ (natToDigs p ++ S))
      = decodeOptsSortBy limit offset ty (some p) S := by
  trans (match dropPrefixLit ("null".data) (natToDigs p ++ S) with
    | some l2 => decodeOptsSortBy limit offset ty none l2
    | none => (parseNatPart (natToDigs p ++ S)).bind
        (fun d => decodeOptsSortBy limit offset ty (some d.1) d.2))
  · rfl
  · rw [dropPrefixLit_null_digits, parseNatPart_digits p S hS]
    rfl

theorem decodeJson_sortBy_none (limit offset : Nat) (ty : Option String)
    (page : Option Nat) (S : List Char) :
    decodeOptsSortBy limit offset ty page (",\"sortOrder\":\"".data ++ S)
      = decodeOptsSortPart limit offset ty page none (",\"sortOrder\":\"".data ++ S) := rfl

theorem decodeJson_sortBy_some (limit offset : Nat) (ty : Option String)
    (page : Option Nat) (s : String) (S : List Char) (hs : noQuote s) :
    decodeOptsSortBy limit offset ty page (",\"sortBy\":\"".data ++ (s.data ++ ('"' :: S)))
      = decodeOptsSortPart limit offset ty page (some s) S := by
  trans ((parseStrVal (s.data ++ '"' :: S)).bind
      (fun d => decodeOptsSortPart limit offset ty page (some (String.mk d.1)) d.2))
  · rfl
  · rw [parseStrVal_value s.data S hs]
    rfl

theorem decodeJson_sortOrder (limit offset : Nat) (ty : Option String)
    (page : Option Nat) (sb : Option String) (so : String) (hso : noQuote so) :
    decodeOptsSortPart limit offset ty page sb
      (",\"sortOrder\":\"".data ++ (so.data ++ ('"' :: "\x7d".data)))
      = some (limit, offset, ty, page, sb, so) := by
  trans ((parseStrVal (so.data ++ '"' :: "\x7d".data)).bind
      (fun d => (dropPrefixLit ("\x7d".data) d.2).bind
        (fun _ => pure (limit, offset, ty, page, sb, String.mk d.1))))
  · rfl
  · rw [parseStrVal_value so.data ("\x7d".data) hso]
    rfl

theorem decodeCacheOptionsJson_json (o : SearchOptions)
    (hty : ∀ t, o.type = some t → noQuote t)
    (hsb : ∀ s, o.sortBy = some s → noQuote s) (hso : noQuote o.sortOrder) :
    decodeCacheOptionsJson ((jsonOfCacheOptions o).data)
      = some (o.limit, o.offset, o.type, o.page, o.sortBy, o.sortOrder) := by
  cases hty' : o.type with
  | none =>
    cases hpg' : o.page with
    | none =>
      cases hsb' : o.sortBy with
      | none =>
        have hdata : (jsonOfCacheOptions o).data
            = "\x7b\"limit\":".data ++ (natToDigs o.limit ++ (",\"offset\":".data ++ (natToDigs o.offset ++ (",\"page\":".data ++ ("null".data ++ (",\"sortOrder\":\"".data ++ (o.sortOrder.data ++ ('"' :: "\x7d".data)))))))) := by
          simp [jsonOfCacheOptions, hty', hpg', hsb', String.data_append, natRepr,
            string_mk_data, List.append_assoc]
        rw [hdata, decodeJson_limit, decodeJson_offset, decodeJson_type_none, decodeJson_page_null, decodeJson_sortBy_none, decodeJson_sortOrder]
        all_goals first | rfl | assumption
      | some sv =>
        have hdata : (jsonOfCacheOptions o).data
            = "\x7b\"limit\":".data ++ (natToDigs o.limit ++ (",\"offset\":".data ++ (natToDigs o.offset ++ (",\"page\":".data ++ ("null".data ++ (",\"sortBy\":\"".data ++ (sv.data ++ ('"' :: (",\"sortOrder\":\"".data ++ (o.sortOrder.data ++ ('"' :: "\x7d".data))))))))))) := by
          simp [jsonOfCacheOptions, hty', hpg', hsb', String.data_append, natRepr,
            string_mk_data, List.append_assoc]
        have hsv : noQuote sv := hsb sv hsb'
        rw [hdata, decodeJson_limit, decodeJson_offset, decodeJson_type_none, decodeJson_page_null, decodeJson_sortBy_some, decodeJson_sortOrder]
        all_goals first | rfl | assumption
    | some pv =>
      cases hsb' : o.sortBy with
      | none =>
        have hdata : (jsonOfCacheOptions o).data
            = "\x7b\"limit\":".data ++ (natToDigs o.limit ++ (",\"offset\":".data ++ (natToDigs o.offset ++ (",\"page\":".data ++ (natToDigs pv ++ (",\"sortOrder\":\"".data ++ (o.sortOrder.data ++ ('"' :: "\x7d".data)))))))) := by
          simp [jsonOfCacheOptions, hty', hpg', hsb', String.data_append, natRepr,
            string_mk_data, List.append_assoc]
        rw [hdata, decodeJson_limit, decodeJson_offset, decodeJson_type_none, decodeJson_page_num, decodeJson_sortBy_none, decodeJson_sortOrder]
        all_goals first | rfl | assumption
      | some sv =>
        have hdata : (jsonOfCacheOptions o).data
            = "\x7b\"limit\":".data ++ (natToDigs o.limit ++ (",\"offset\":".data ++ (natToDigs o.offset ++ (",\"page\":".data ++ (natToDigs pv ++ (",\"sortBy\":\"".data ++ (sv.data ++ ('"' :: (",\"sortOrder\":\"".data ++ (o.sortOrder.data ++ ('"' :: "\x7d".data))))))))))) := by
          simp [jsonOfCacheOptions, hty', hpg', hsb', String.data_append, natRepr,
            string_mk_data, List.append_assoc]
        have hsv : noQuote sv := hsb sv hsb'
        rw [hdata, decodeJson_limit, decodeJson_offset, decodeJson_type_none, decodeJson_page_num, decodeJson_sortBy_some, decodeJson_sortOrder]
        all_goals first | rfl | assumption
  | some tv =>
    cases hpg' : o.page with
    | none =>
      cases hsb' : o.sortBy with
      | none =>
        have hdata : (jsonOfCacheOptions o).data
            = "\x7b\"limit\":".data ++ (natToDigs o.limit ++ (",\"offset\":".data ++ (natToDigs o.offset ++ (",\"type\":\"".data ++ (tv.data ++ ('"' :: (",\"page\":".data ++ ("null".data ++ (",\"sortOrder\":\"".data ++ (o.sortOrder.data ++ ('"' :: "\x7d".data))))))))))) := by
          simp [jsonOfCacheOptions, hty', hpg', hsb', String.data_append, natRepr,
            string_mk_data, List.append_assoc]
        have htv : noQuote tv := hty tv hty'
        rw [hdata, decodeJson_limit, decodeJson_offset, decodeJson_type_some, decodeJson_page_null, decodeJson_sortBy_none, decodeJson_sortOrder]
        all_goals first | rfl | assumption
      | some sv =>
        have hdata : (jsonOfCacheOptions o).data
            = "\x7b\"limit\":".data ++ (natToDigs o.limit ++ (",\"offset\":".data ++ (natToDigs o.offset ++ (",\"type\":\"".data ++ (tv.data ++ ('"' :: (",\"page\":".data ++ ("null".data ++ (",\"sortBy\":\"".data ++ (sv.data ++ ('"' :: (",\"sortOrder\":\"".data ++ (o.sortOrder.data ++ ('"' :: "\x7d".data)))))))))))))) := by
          simp [jsonOfCacheOptions, hty', hpg', hsb', String.data_append, natRepr,
            string_mk_data, List.append_assoc]
        have htv : noQuote tv := hty tv hty'
        have hsv : noQuote sv := hsb sv hsb'
        rw [hdata, decodeJson_limit, decodeJson_offset, decodeJson_type_some, decodeJson_page_null, decodeJson_sortBy_some, decodeJson_sortOrder]
        all_goals first | rfl | assumption
    | some pv =>
      cases hsb' : o.sortBy with
      | none =>
        have hdata : (jsonOfCacheOptions o).data
            = "\x7b\"limit\":".data ++ (natToDigs o.limit ++ (",\"offset\":".data ++ (natToDigs o.offset ++ (",\"type\":\"".data ++ (tv.data ++ ('"' :: (",\"page\":".data ++ (natToDigs pv ++ (",\"sortOrder\":\"".data ++ (o.sortOrder.data ++ ('"' :: "\x7d".data))))))))))) := by
          simp [jsonOfCacheOptions, hty', hpg', hsb', String.data_append, natRepr,
            string_mk_data, List.append_assoc]
        have htv : noQuote tv := hty tv hty'
        rw [hdata, decodeJson_limit, decodeJson_offset, decodeJson_type_some, decodeJson_page_num, decodeJson_sortBy_none, decodeJson_sortOrder]
        all_goals first | rfl | assumption
      | some sv =>
        have hdata : (jsonOfCacheOptions o).data
            = "\x7b\"limit\":".data ++ (natToDigs o.limit ++ (",\"offset\":".data ++ (natToDigs o.offset ++ (",\"type\":\"".data ++ (tv.data ++ ('"' :: (",\"page\":".data ++ (natToDigs pv ++ (",\"sortBy\":\"".data ++ (sv.data ++ ('"' :: (",\"sortOrder\":\"".data ++ (o.sortOrder.data ++ ('"' :: "\x7d".data)))))))))))))) := by
          simp [jsonOfCacheOptions, hty', hpg', hsb', String.data_append, natRepr,
            string_mk_data, List.append_assoc]
        have htv : noQuote tv := hty tv hty'
        have hsv : noQuote sv := hsb sv hsb'
        rw [hdata, decodeJson_limit, decodeJson_offset, decodeJson_type_some, decodeJson_page_num, decodeJson_sortBy_some, decodeJson_sortOrder]
        all_goals first | rfl | assumption

theorem ascii_natToDigs (n : Nat) : ∀ c ∈ natToDigs n, c.toNat < 256 := by
  intro c hc
  have hd := natToDigs_all_digits n c hc
  unfold isDigitChar at hd
  simp at hd
  omega

theorem jsonOfCacheOptions_ascii (o : SearchOptions)
    (hty : ∀ t, o.type = some t → ∀ c ∈ t.data, c.toNat < 256)
    (hsb : ∀ s, o.sortBy = some s → ∀ c ∈ s.data, c.toNat < 256)
    (hso : ∀ c ∈ o.sortOrder.data, c.toNat < 256) :
    ∀ c ∈ (jsonOfCacheOptions o).data, c.toNat < 256 := by
  unfold jsonOfCacheOptions
  cases hty' : o.type <;> cases hpg' : o.page <;> cases hsb' : o.sortBy <;>
    (simp only [String.data_append, string_mk_data, natRepr, List.append_assoc,
       List.forall_mem_append]
     repeat' apply And.intro
     all_goals first
       | exact ascii_natToDigs _
       | exact hty _ hty'
       | exact hsb _ hsb'
       | exact hso
       | decide)

theorem char_toNat_injective : Function.Injective Char.toNat := by
  intro a b hab
  rw [← Char.ofNat_toNat a, ← Char.ofNat_toNat b, hab]

theorem stringToBytes_inj {s1 s2 : String} (h : stringToBytes s1 = stringToBytes s2) :
    s1 = s2 := by
  unfold stringToBytes at h
  have hdata : s1.data = s2.data := List.map_injective_iff.mpr char_toNat_injective h
  exact congrArg String.mk hdata

theorem cacheKey_eq_json_eq {d q : String} {o1 o2 : SearchOptions}
    (h : generateCacheKey d q o1 = generateCacheKey d q o2) :
    (b64OfString (jsonOfCacheOptions o1)).data = (b64OfString (jsonOfCacheOptions o2)).data := by
  unfold generateCacheKey at h
  have hd := congrArg String.data h
  simp only [String.data_append, List.append_assoc] at hd
  exact List.append_cancel_left (List.append_cancel_left (List.append_cancel_left
    (List.append_cancel_left (List.append_cancel_left hd))))

theorem validCacheOptions_noQuote_type {o : SearchOptions} (h : validCacheOptions o) :
    ∀ t, o.type = some t → noQuote t := by
  intro t ht
  rcases h.1 with h' | h' | h' | h' <;> rw [h'] at ht
  · cases ht
  all_goals (injection ht with ht; subst ht; unfold noQuote; decide)

theorem validCacheOptions_noQuote_sortBy {o : SearchOptions} (h : validCacheOptions o) :
    ∀ s, o.sortBy = some s → noQuote s := by
  intro s hs
  rcases h.2.1 with h' | h' | h' | h' <;> rw [h'] at hs
  · cases hs
  all_goals (injection hs with hs; subst hs; unfold noQuote; decide)

theorem validCacheOptions_noQuote_sortOrder {o : SearchOptions} (h : validCacheOptions o) :
    noQuote o.sortOrder := by
  rcases h.2.2 with h' | h' <;> rw [h'] <;> unfold noQuote <;> decide

theorem validCacheOptions_ascii_json {o : SearchOptions} (h : validCacheOptions o) :
    ∀ c ∈ (jsonOfCacheOptions o).data, c.toNat < 256 := by
  apply jsonOfCacheOptions_ascii
  · intro t ht
    rcases h.1 with h' | h' | h' | h' <;> rw [h'] at ht
    · cases ht
    all_goals (injection ht with ht; subst ht; decide)
  · intro s hs
    rcases h.2.1 with h' | h' | h' | h' <;> rw [h'] at hs
    · cases hs
    all_goals (injection hs with hs; subst hs; decide)
  · rcases h.2.2 with h' | h' <;> rw [h'] <;> decide

/-! # Theorems for the specification claims -/

/-- **C1** (code bug evidence).  Reprocessing the completed document `d1`
does not delete-then-recreate its index or its stored chunks: after the
reprocess run completes successfully (attempt 1 of 3, result
`completedRun`), both the chunks table and the `pdf_search_d1` index still
hold the run-1 chunk (content from `pdFirst`, page 2) next to the run-2
chunk, so querying the document's content and index yields stale entries
from the prior run — contradicting the claim. -/
theorem claim_C1_reprocess_leaves_stale_entries :
    runReprocess.2 = .ok (.completedRun ⟨"d1", 1, 1⟩) ∧
    ((wReprocessed.chunkRows.filter (fun r => r.documentId == "d1")).map
        (fun r => (r.content, r.pageNumber)))
      = [("The quick brown fox jumps over the lazy dog", 2),
         ("Document report.pdf reprocessing", 1)] ∧
    ((indexDocsOf wReprocessed (getIndexName "d1")).map (fun r => r.content))
      = ["The quick brown fox jumps over the lazy dog",
         "Document report.pdf reprocessing"] :=
  ⟨rfl, rfl, rfl⟩

/-- **C2** (counterexample).  After the reprocess run on `d1` finishes, the
document's `totalPages` field is 1 (the maximum over the latest run's
chunks) while the maximum `pageNumber` over its persisted chunk rows is 2
(the stale run-1 chunk is still stored) — so `totalPages` does not equal
the maximum `pageNumber` over the persisted chunks, refuting the claim as
stated. -/
theorem claim_C2_counterexample :
    (findDoc wReprocessed "d1").map (fun d => d.totalPages) = some 1 ∧
    ((wReprocessed.chunkRows.filter (fun r => r.documentId == "d1")).map
        (fun r => r.pageNumber)).foldr max 0 = 2 :=
  ⟨rfl, rfl⟩

/-- **C3** (code bug evidence).  A failure at the indexing step on attempt 1
of 3 — a non-final attempt (`0 + 1 < 3`) — rethrows to the queue, but the
document is nonetheless already marked `failed` with the error message
recorded, because `ETLService.processDocument`'s catch block updates the
status unconditionally before rethrowing; the claim says a non-final
failure never moves the document to `failed`. -/
theorem claim_C3_nonfinal_attempt_marks_failed :
    0 + 1 < 3 ∧
    runFailing.2 = .error "Indexing failed" ∧
    (findDoc runFailing.1 "d1").map (fun d => (d.status, d.processingError))
      = some (.failed, some "Indexing failed") :=
  ⟨by decide, rfl, rfl⟩

/-- **C7** (code bug evidence).  `invalidateCache` is a placeholder: the
per-document cache clear on `d1` leaves the cache entry derived from `d1`'s
fingerprint untouched (and reports success, HTTP 200), and the next
identical search on `d1` is still served from the cache without querying
the index — the claim requires the entry to be removed and the next search
to miss. -/
theorem claim_C7_invalidate_is_noop :
    clearSearchCache wAfterFirst cacheWithEntry "d1" = (cacheWithEntry, 200) ∧
    searchDocument wAfterFirst cacheWithEntry "d1" "fox" optPlain (.ok [])
      = (.ok (.fromCache "cached-response"), false) :=
  ⟨rfl, rfl⟩

/-- **C8**.  Delivering a job for a document whose status is already
`completed` is a no-op success: the world (documents, chunk rows, indexes,
id supply) is returned unchanged and the job resolves with the
`already_processed` result, so duplicate delivery never double-processes. -/
theorem claim_C8_completed_job_noop (w : World) (documentId : String)
    (pd : ParsedData) (attemptsMade attempts : Nat) (indexingFails : Bool)
    (d : DocumentRow) (hfind : findDoc w documentId = some d)
    (hst : d.status = .completed) :
    processDocumentJob w documentId pd attemptsMade attempts indexingFails
      = (w, .ok .alreadyProcessed) := by
  unfold processDocumentJob
  rw [hfind]
  simp [hst]

/-- **C8** witness: the second delivery of the already-completed `d1` job. -/
theorem claim_C8_witness :
    processDocumentJob wAfterFirst "d1" pdSecond 0 3 false
      = (wAfterFirst, .ok .alreadyProcessed) :=
  claim_C8_completed_job_noop wAfterFirst "d1" pdSecond 0 3 false
    ⟨"d1", .completed, none, 2, 1⟩ (by decide) rfl

/-- **C9** (counterexample).  On the text `"One two three. Four five."`
(5 words, 2 sentences) the code computes `avgWordsPerSentence = 3`
(`Math.round(5 / 2)`, half away from zero), while the claimed
rounded-down value `5 / 2` is 2 — refuting the claim as stated. -/
theorem claim_C9_counterexample :
    ((extractTextFeatures "One two three. Four five.").map
      (fun f => f.avgWordsPerSentence)) = some 3 ∧
    ((extractTextFeatures "One two three. Four five.").map
      (fun f => f.wordCount / f.sentenceCount)) = some 2 :=
  ⟨rfl, rfl⟩

/-- **C9** (amended).  Text feature extraction is a pure function of the
text; for every non-empty text it yields a feature record whose
`avgWordsPerSentence` is `wordCount / sentenceCount` rounded to the
*nearest* integer (`Math.round`, half away from zero — for naturals
`(2w + s) / 2s`), and it is `0` with no division when the sentence count
is zero. -/
theorem claim_C9_amended (text : String) (h : text ≠ "") :
    ∃ f, extractTextFeatures text = some f ∧
      f.wordCount = (wordTokens text).length ∧
      f.sentenceCount = (sentenceSegs text).length ∧
      (f.sentenceCount = 0 → f.avgWordsPerSentence = 0) ∧
      (0 < f.sentenceCount →
        f.avgWordsPerSentence
          = (2 * f.wordCount + f.sentenceCount) / (2 * f.sentenceCount)) := by
  unfold extractTextFeatures
  rw [if_neg h]
  refine ⟨_, rfl, rfl, rfl, ?_, ?_⟩
  · intro hs
    simp only at hs ⊢
    rw [hs]
    rfl
  · intro hs
    simp only at hs ⊢
    rw [if_pos hs]

/-- **C9** witness: the amended theorem applied to the counterexample text. -/
theorem claim_C9_witness :
    ∃ f, extractTextFeatures "One two three. Four five." = some f ∧
      f.wordCount = (wordTokens "One two three. Four five.").length ∧
      f.sentenceCount = (sentenceSegs "One two three. Four five.").length ∧
      (f.sentenceCount = 0 → f.avgWordsPerSentence = 0) ∧
      (0 < f.sentenceCount →
        f.avgWordsPerSentence
          = (2 * f.wordCount + f.sentenceCount) / (2 * f.sentenceCount)) :=
  claim_C9_amended "One two three. Four five." (by decide)

/-- **C10**.  The suggestions operation never propagates an exception: an
absent or sub-2-character query yields an empty suggestions list without
ever querying the index, and an index query that throws also yields an
empty suggestions list instead of an error. -/
theorem claim_C10_suggestions_never_throw (documentId query : String)
    (limit : Nat) (idxResult : Except String (List IndexDoc)) :
    ((query = "" ∨ query.length < 2) →
      searchSuggestions documentId query limit idxResult = (⟨[]⟩, false)) ∧
    (∀ e, idxResult = .error e →
      (searchSuggestions documentId query limit idxResult).1 = ⟨[]⟩) := by
  constructor
  · intro h
    unfold searchSuggestions
    rw [if_pos h]
  · intro e he
    unfold searchSuggestions
    by_cases hq : query = "" ∨ query.length < 2
    · rw [if_pos hq]
    · rw [if_neg hq, he]

/-- **C10** witness: a one-character query short-circuits, and an index
failure is absorbed. -/
theorem claim_C10_witness :
    searchSuggestions "d1" "a" 5 (.ok []) = (⟨[]⟩, false) ∧
    (searchSuggestions "d1" "fox" 5 (.error "MeiliSearch unreachable")).1 = ⟨[]⟩ :=
  ⟨(claim_C10_suggestions_never_throw "d1" "a" 5 (.ok [])).1 (Or.inr (by decide)),
   (claim_C10_suggestions_never_throw "d1" "fox" 5
      (.error "MeiliSearch unreachable")).2 "MeiliSearch unreachable" rfl⟩

/-- **C5**.  Search request validation: a trimmed query shorter than 2
characters fails with the query-too-short error before the index is ever
queried (the boolean component is `false`); an unknown document fails with
not-found; a document that exists but is not `completed` fails with the
not-ready error carrying its status — and the controller maps these three
failures to the distinct response codes 400, 404 and 422, with
marker-free internal errors mapped to 500. -/
theorem claim_C5_search_validation (w : World) (cache : List (String × String))
    (documentId query : String) (opts : SearchOptions)
    (idxResult : Except String (List IndexDoc)) (hid : documentId ≠ "") :
    ((jsTrim query).length < MIN_QUERY_LENGTH →
      searchDocument w cache documentId query opts idxResult
        = (.error .queryTooShort, false)) ∧
    (MIN_QUERY_LENGTH ≤ (jsTrim query).length → findDoc w documentId = none →
      searchDocument w cache documentId query opts idxResult
        = (.error .notFound, false)) ∧
    (∀ d, MIN_QUERY_LENGTH ≤ (jsTrim query).length →
      findDoc w documentId = some d → d.status ≠ .completed →
      searchDocument w cache documentId query opts idxResult
        = (.error (.notReady d.status), false)) ∧
    (searchErrorHttpStatus .queryTooShort = 400 ∧
     searchErrorHttpStatus .notFound = 404 ∧
     (∀ st, searchErrorHttpStatus (.notReady st) = 422) ∧
     (∀ m, containsSubstr m "Document not found" = false →
        containsSubstr m "not ready for search" = false →
        containsSubstr m "Query must be at least" = false →
        searchErrorHttpStatus (.internal m) = 500)) := by
  refine ⟨?_, ?_, ?_, by decide, by decide, ?_, ?_⟩
  · intro hq
    unfold searchDocument
    rw [if_neg hid, if_pos hq]
  · intro hq hfind
    unfold searchDocument
    rw [if_neg hid, if_neg (by omega), hfind]
  · intro d hq hfind hst
    unfold searchDocument
    rw [if_neg hid, if_neg (by omega), hfind]
    simp [hst]
  · intro st
    cases st <;> decide
  · intro m h1 h2 h3
    unfold searchErrorHttpStatus
    simp [failureMessage, h1, h2, h3]

/-- **C5** witness: a one-character query, an unknown document and a pending
document each produce their typed failure without an index round trip, and
the controller statuses are distinct. -/
theorem claim_C5_witness :
    searchDocument wStart [] "d1" "a" optPlain (.ok [])
      = (.error .queryTooShort, false) ∧
    searchDocument wStart [] "nope" "fox" optPlain (.ok [])
      = (.error .notFound, false) ∧
    searchDocument wStart [] "d1" "fox" optPlain (.ok [])
      = (.error (.notReady .pending), false) ∧
    searchErrorHttpStatus .queryTooShort = 400 ∧
    searchErrorHttpStatus .notFound = 404 ∧
    searchErrorHttpStatus (.notReady .pending) = 422 :=
  ⟨(claim_C5_search_validation wStart [] "d1" "a" optPlain (.ok [])
      (by decide)).1 (by decide),
   (claim_C5_search_validation wStart [] "nope" "fox" optPlain (.ok [])
      (by decide)).2.1 (by decide) (by decide),
   (claim_C5_search_validation wStart [] "d1" "fox" optPlain (.ok [])
      (by decide)).2.2.1 ⟨"d1", .pending, none, 0, 0⟩ (by decide) (by decide)
      (by decide),
   (claim_C5_search_validation wStart [] "d1" "a" optPlain (.ok [])
      (by decide)).2.2.2.1,
   (claim_C5_search_validation wStart [] "d1" "a" optPlain (.ok [])
      (by decide)).2.2.2.2.1,
   (claim_C5_search_validation wStart [] "d1" "a" optPlain (.ok [])
      (by decide)).2.2.2.2.2.1 .pending⟩

/-- **C4**.  Whatever a processing run does (success or an injected indexing
failure, document present or not), every chunk row it persists satisfies the
per-kind minimum content length: cleaned paragraph text of length at least
10, OCR-extracted image text of length at least 6, flattened table text of
length at least 10 — shorter records are dropped during extraction and never
stored. -/
theorem claim_C4_min_content_length (w : World) (documentId : String) (pd : ParsedData) (fl : Bool) :
    ∃ newRows,
      ((processDocument w documentId pd fl).1).chunkRows = w.chunkRows ++ newRows ∧
      ∀ row ∈ newRows,
        (row.chunkType = .paragraph → 10 ≤ row.content.length) ∧
        (row.chunkType = .image → 6 ≤ row.content.length) ∧
        (row.chunkType = .table → 10 ≤ row.content.length) := by
  refine ⟨newRowsOf w documentId pd, ?_, ?_⟩
  · cases hfind : findDoc w documentId with
    | none =>
      unfold processDocument newRowsOf
      rw [hfind]
      simp
    | some d0 =>
      unfold newRowsOf
      rw [hfind]
      cases fl with
      | false =>
        rw [processDocument_ok_eq w documentId pd d0 hfind]
        rw [updateStatus_chunkRows, indexDocumentChunks_chunkRows,
          createDocumentIndex_chunkRows, storeChunks_chunkRows,
          saveDoc_chunkRows, saveDoc_nextId]
        rfl
      | true =>
        rw [processDocument_fail_eq w documentId pd d0 hfind]
        rw [updateStatus_chunkRows, createDocumentIndex_chunkRows, storeChunks_chunkRows,
          saveDoc_chunkRows, saveDoc_nextId]
        rfl
  · intro row hrow
    unfold newRowsOf at hrow
    cases hfind : findDoc w documentId with
    | none =>
      rw [hfind] at hrow
      cases hrow
    | some d0 =>
      rw [hfind] at hrow
      obtain ⟨c, hc, hty, hcontent, _⟩ := mem_chunkRowsFrom documentId _ _ row hrow
      obtain ⟨core, hcore, hty2, hcontent2, _⟩ := mem_assignIds _ _ c hc
      obtain ⟨h1, h2, h3⟩ := extractCores_minLength pd core hcore
      rw [hty, hty2, hcontent, hcontent2]
      exact ⟨h1, h2, h3⟩

/-- **C4** witness: the mixed parsed data (an accepted and a rejected
paragraph, two OCR outcomes, a table) run against the fresh world. -/
theorem claim_C4_witness :
    ∃ newRows,
      ((processDocument wStart "d1" pdMixed false).1).chunkRows
        = wStart.chunkRows ++ newRows ∧
      ∀ row ∈ newRows,
        (row.chunkType = .paragraph → 10 ≤ row.content.length) ∧
        (row.chunkType = .image → 6 ≤ row.content.length) ∧
        (row.chunkType = .table → 10 ≤ row.content.length) :=
  claim_C4_min_content_length wStart "d1" pdMixed false

/-- **C2** (amended).  After a successful processing run on a document that
had no persisted chunks beforehand (`totalChunks = 0` — e.g. any freshly
uploaded document), the document's `totalChunks` equals the number of chunk
rows persisted for it and `totalPages` equals the maximum `pageNumber` over
those rows (`0` when there are none).  (On a reprocess run over surviving
prior rows, `totalPages` reflects only the latest run's chunks — see the
counterexample.) -/
theorem claim_C2_amended (w : World) (documentId : String) (pd : ParsedData)
    (w' : World) (r : EtlResult) (d0 : DocumentRow)
    (hfind : findDoc w documentId = some d0) (hzero : d0.totalChunks = 0)
    (hnorows : w.chunkRows.filter (fun row => row.documentId == documentId) = [])
    (hrun : processDocument w documentId pd false = (w', .ok r)) :
    ∃ d', findDoc w' documentId = some d' ∧ d'.status = .completed ∧
      d'.totalChunks
        = ((w'.chunkRows.filter (fun row => row.documentId == documentId)).length) ∧
      d'.totalPages
        = ((w'.chunkRows.filter (fun row => row.documentId == documentId)).foldr
            (fun row m => max row.pageNumber m) 0) := by
  rw [processDocument_ok_eq w documentId pd d0 hfind] at hrun
  rw [Prod.mk.injEq] at hrun
  obtain ⟨hw', -⟩ := hrun
  subst hw'
  set chunks := assignIds w.nextId (extractCores pd) with hchunks
  set doc2 : DocumentRow :=
    { d0 with
        status := .processing
        processingError := none
        totalPages := calculateTotalPages chunks } with hdoc2
  set w2 : World :=
    { (updateStatus w documentId .processing none) with
        nextId := w.nextId + (extractCores pd).length } with hw2
  have hid : d0.id = documentId := findDoc_id hfind
  have hfind2 : findDoc w2 documentId
      = some { d0 with status := .processing, processingError := none } := by
    have hsame : findDoc w2 documentId
        = findDoc (updateStatus w documentId .processing none) documentId :=
      findDoc_of_docs_eq _ rfl
    rw [hsame]
    unfold updateStatus
    rw [findDoc_updateDocRow]
    · rw [hfind]
      rfl
    · intro d _
      rfl
  have hid2 : doc2.id = documentId := hid
  have hfind3 : findDoc (saveDoc w2 doc2) documentId = some doc2 :=
    findDoc_saveDoc_of_id w2 doc2 documentId hid2 hfind2
  have hrows : (updateStatus
      (indexDocumentChunks
        (createDocumentIndex (storeChunks (saveDoc w2 doc2) documentId chunks) documentId)
        documentId chunks)
      documentId .completed none).chunkRows
      = w.chunkRows ++ chunkRowsFrom w2.nextId documentId chunks := by
    rw [updateStatus_chunkRows, indexDocumentChunks_chunkRows, createDocumentIndex_chunkRows,
      storeChunks_chunkRows, saveDoc_chunkRows, saveDoc_nextId]
    rfl
  have hfilter : ((updateStatus
      (indexDocumentChunks
        (createDocumentIndex (storeChunks (saveDoc w2 doc2) documentId chunks) documentId)
        documentId chunks)
      documentId .completed none).chunkRows.filter (fun row => row.documentId == documentId))
      = chunkRowsFrom w2.nextId documentId chunks := by
    rw [hrows, List.filter_append, hnorows, chunkRowsFrom_filter]
    rfl
  have hpages : ∀ c ∈ chunks, c.pageNumber ≠ 0 := by
    intro c hc
    obtain ⟨core, hcore, _, _, hpage⟩ := mem_assignIds _ _ c hc
    rw [hpage]
    exact extractCores_page_ne_zero pd core hcore
  have hcount0 : countChunks (saveDoc w2 doc2) documentId = 0 := by
    unfold countChunks
    rw [saveDoc_chunkRows]
    show (List.filter (fun row => row.documentId == documentId) w.chunkRows).length = 0
    rw [hnorows]
    rfl
  have hstep : findDoc (updateStatus
      (indexDocumentChunks
        (createDocumentIndex (storeChunks (saveDoc w2 doc2) documentId chunks) documentId)
        documentId chunks)
      documentId .completed none) documentId
      = (findDoc (storeChunks (saveDoc w2 doc2) documentId chunks) documentId).map
          (fun d => { d with status := .completed, processingError := none }) := by
    unfold updateStatus
    rw [findDoc_updateDocRow]
    · congr 1
      apply findDoc_of_docs_eq
      rw [indexDocumentChunks_docs, createDocumentIndex_docs]
    · intro d _
      rfl
  by_cases hne : chunks = []
  · refine ⟨{ doc2 with status := .completed, processingError := none }, ?_, rfl, ?_, ?_⟩
    · rw [hstep, hne]
      show (findDoc (saveDoc w2 doc2) documentId).map _ = _
      rw [hfind3]
      rfl
    · rw [hfilter, hne]
      show d0.totalChunks = ((chunkRowsFrom w2.nextId documentId []).length)
      rw [hzero]
      rfl
    · rw [hfilter, hne]
      show calculateTotalPages chunks = _
      rw [hne]
      rfl
  · refine ⟨{ doc2 with
        totalChunks := 0 + chunks.length
        status := .completed
        processingError := none }, ?_, rfl, ?_, ?_⟩
    · rw [hstep, findDoc_storeChunks documentId chunks (saveDoc w2 doc2) hne, hcount0, hfind3]
      rfl
    · rw [hfilter, chunkRowsFrom_length]
      show 0 + chunks.length = chunks.length
      omega
    · rw [hfilter]
      show calculateTotalPages chunks = _
      rw [calculateTotalPages_eq_fold, fold_pages_eq_rows documentId chunks w2.nextId hpages]

/-- **C2** witness: the first processing run of `d1` from the fresh world. -/
theorem claim_C2_witness :
    ∃ d', findDoc ((processDocument wStart "d1" pdFirst false).1) "d1" = some d' ∧
      d'.status = .completed ∧
      d'.totalChunks
        = ((((processDocument wStart "d1" pdFirst false).1).chunkRows.filter
            (fun row => row.documentId == "d1")).length) ∧
      d'.totalPages
        = ((((processDocument wStart "d1" pdFirst false).1).chunkRows.filter
            (fun row => row.documentId == "d1")).foldr
            (fun row m => max row.pageNumber m) 0) :=
  claim_C2_amended wStart "d1" pdFirst _ ⟨"d1", 1, 2⟩ ⟨"d1", .pending, none, 0, 0⟩
    rfl rfl rfl rfl


/-- C6 (counterexample to the literal claim): two searches on the same document
with the same query that differ only in the minimum-confidence filter produce
the same cache key, because `generateCacheKey` leaves `minConfidence` out of
the options object it stringifies. -/
theorem claim_C6_counterexample :
    generateCacheKey "d1" "fox" optMinConf50 = generateCacheKey "d1" "fox" optPlain ∧
      optMinConf50.minConfidence ≠ optPlain.minConfidence := by
  constructor
  · rfl
  · decide

/-- C6 (amended): for option values the validation layer can produce, the cache
key is a deterministic fingerprint of the document id, the query, and the six
keyed option fields `limit, offset, type, page, sortBy, sortOrder` — two
requests with the same document id and query share a cache key exactly when
they agree on all six of those fields.  (`minConfidence` is excluded: see the
counterexample.) -/
theorem claim_C6_amended (documentId query : String) (o1 o2 : SearchOptions)
    (h1 : validCacheOptions o1) (h2 : validCacheOptions o2) :
    generateCacheKey documentId query o1 = generateCacheKey documentId query o2 ↔
      (o1.limit = o2.limit ∧ o1.offset = o2.offset ∧ o1.type = o2.type ∧
       o1.page = o2.page ∧ o1.sortBy = o2.sortBy ∧ o1.sortOrder = o2.sortOrder) := by
  constructor
  · intro h
    have hb := cacheKey_eq_json_eq h
    have hbytes : stringToBytes (jsonOfCacheOptions o1)
        = stringToBytes (jsonOfCacheOptions o2) := by
      have e1 := b64_decode_encode (stringToBytes (jsonOfCacheOptions o1)) (by
        intro b hb'
        rcases List.mem_map.mp hb' with ⟨c, hc, hcb⟩
        rw [← hcb]
        exact validCacheOptions_ascii_json h1 c hc)
      have e2 := b64_decode_encode (stringToBytes (jsonOfCacheOptions o2)) (by
        intro b hb'
        rcases List.mem_map.mp hb' with ⟨c, hc, hcb⟩
        rw [← hcb]
        exact validCacheOptions_ascii_json h2 c hc)
      rw [← e1, ← e2]
      exact congrArg b64Decode hb
    have hJ : jsonOfCacheOptions o1 = jsonOfCacheOptions o2 := stringToBytes_inj hbytes
    have hdec1 := decodeCacheOptionsJson_json o1 (validCacheOptions_noQuote_type h1)
      (validCacheOptions_noQuote_sortBy h1) (validCacheOptions_noQuote_sortOrder h1)
    have hdec2 := decodeCacheOptionsJson_json o2 (validCacheOptions_noQuote_type h2)
      (validCacheOptions_noQuote_sortBy h2) (validCacheOptions_noQuote_sortOrder h2)
    rw [hJ] at hdec1
    have htup := Option.some.inj (hdec1.symm.trans hdec2)
    simpa only [Prod.mk.injEq] using htup
  · intro h
    have hJ : jsonOfCacheOptions o1 = jsonOfCacheOptions o2 := by
      unfold jsonOfCacheOptions
      rw [h.1, h.2.1, h.2.2.1, h.2.2.2.1, h.2.2.2.2.1, h.2.2.2.2.2]
    unfold generateCacheKey
    rw [hJ]

/-- Witness for `claim_C6_amended` at concrete options (default options versus
limit 21). -/
theorem claim_C6_witness :
    validCacheOptions optPlain ∧ validCacheOptions optLimit21 ∧
      ((generateCacheKey "d1" "fox" optPlain = generateCacheKey "d1" "fox" optLimit21) ↔
        (optPlain.limit = optLimit21.limit ∧ optPlain.offset = optLimit21.offset ∧
         optPlain.type = optLimit21.type ∧ optPlain.page = optLimit21.page ∧
         optPlain.sortBy = optLimit21.sortBy ∧ optPlain.sortOrder = optLimit21.sortOrder)) :=
  ⟨by decide, by decide,
    claim_C6_amended "d1" "fox" optPlain optLimit21 (by decide) (by decide)⟩

end PDFSearch
